import Mathlib

/-!
Verification of the smart-routing and component-boundary modules of
kicad-mcp-python (`kicad_mcp_python/schematic/smart_routing.py` and
`kicad_mcp_python/schematic/component_boundary.py`).

The Python code is shallowly embedded: positions are pairs of integers
(nanometres), Python floats are modelled as real numbers, Python `//` on
integers is `Int.fdiv` (floor division), Python exceptions
(`ZeroDivisionError`) are modelled by `Option`, and the unbounded
`while True` loop of the Cohen-Sutherland clipper is modelled with
explicit fuel (a `none` result means the loop either performed a
division by zero or did not finish within the given fuel).
-/

/-- Wire routing modes matching KiCad's LINE_MODE (`RoutingMode` enum). -/
inductive RoutingMode where
  | MANHATTAN
  | DIRECT
  | FREE
  | ANGLE_45
deriving DecidableEq

/-- Position in nanometers (KiCad API coordinate system). -/
structure Position where
  x_nm : Int
  y_nm : Int
deriving DecidableEq

/-- `Position.distance_to`: Euclidean distance, `sqrt(dx*dx + dy*dy)`. -/
noncomputable def Position.distance_to (p other : Position) : ℝ :=
  Real.sqrt (((p.x_nm - other.x_nm : ℤ) : ℝ) * ((p.x_nm - other.x_nm : ℤ) : ℝ)
    + ((p.y_nm - other.y_nm : ℤ) : ℝ) * ((p.y_nm - other.y_nm : ℤ) : ℝ))

/-- `Position.manhattan_distance_to`: L1 distance. -/
def Position.manhattan_distance_to (p other : Position) : Int :=
  |p.x_nm - other.x_nm| + |p.y_nm - other.y_nm|

/-- Schematic pin with routing information. -/
structure Pin where
  id : String
  name : String
  number : String
  position : Position
  orientation : Int
  electrical_type : Int
  length : Int
  symbol_reference : String := ""
deriving DecidableEq

/-- `Pin.get_connection_point`: the pin position is used directly. -/
def Pin.get_connection_point (p : Pin) : Position :=
  p.position

/-- Schematic symbol with routing context (`Symbol` in the source; renamed
because `Symbol` already exists in the ambient library). -/
structure SchSymbol where
  id : String
  reference : String
  value : String
  position : Position
  orientation_degrees : ℝ
  pins : List Pin

/-- Complete routing path with segments. `start_pin`/`end_pin` are `Option`
because `_generate_bus_routing_path` constructs paths with `None` pins that
the caller fills in afterwards. -/
structure RoutingPath where
  start_pin : Option Pin
  end_pin : Option Pin
  segments : List (Position × Position)
  total_length : ℝ
  mode : RoutingMode
  quality_score : ℝ := 0
  bus_used : Option String := none

/-- An entry of the `existing_wires` list handed to bus-aware routing
(the Python code receives these as dictionaries). -/
structure Wire where
  id : String
  layer_type : String
  length_nm : Int
  is_horizontal : Bool
  is_vertical : Bool
  start_p : Position
  end_p : Position

/-- A bus structure produced by `_analyze_bus_structures`
(a Python dictionary in the source). -/
structure BusStructure where
  bus_type : String
  id : String
  coordinate : Int
  range_start : Int
  range_end : Int
  length_nm : Int
  start_pos : Position
  end_pos : Position
deriving DecidableEq

/-- `SmartRoutingEngine.grid_size_nm` (1.27 mm = 50 mils). -/
def grid_size_nm : Int := 1270000

/-- `SmartRoutingEngine.snap_range_nm` (0.635 mm = 25 mils). -/
def snap_range_nm : Int := 635000

/-- `SmartRoutingEngine.compute_break_point`: port of KiCad's
`computeBreakPoint()`.  The Python code mutates a midpoint via the
`break_vertical` / `break_horizontal` closures; here each closure result is a
value and the successive assignments become successive selections. -/
def compute_break_point (start e : Position) (mode : RoutingMode)
    (prefer_horizontal prefer_vertical : Bool) : Position :=
  let delta : Position := ⟨e.x_nm - start.x_nm, e.y_nm - start.y_nm⟩
  let x_dir : Int := if delta.x_nm > 0 then 1 else -1
  let y_dir : Int := if delta.y_nm > 0 then 1 else -1
  if mode = RoutingMode.DIRECT then e
  else
    let break_vertical : Position :=
      if mode = RoutingMode.ANGLE_45 then
        ⟨start.x_nm, e.y_nm - y_dir * |delta.x_nm|⟩
      else
        ⟨start.x_nm, e.y_nm⟩
    let break_horizontal : Position :=
      if mode = RoutingMode.ANGLE_45 then
        ⟨e.x_nm - x_dir * |delta.y_nm|, start.y_nm⟩
      else
        ⟨e.x_nm, start.y_nm⟩
    let midpoint0 : Position :=
      if prefer_vertical then break_vertical
      else if prefer_horizontal then break_horizontal
      else if |delta.x_nm| < |delta.y_nm| then break_vertical
      else break_horizontal
  let state1 : Bool × Bool × Position :=
      if mode = RoutingMode.ANGLE_45 then
        let delta_midpoint : Position :=
          ⟨midpoint0.x_nm - start.x_nm, midpoint0.y_nm - start.y_nm⟩
        if (decide (delta_midpoint.x_nm > 0) != decide (delta.x_nm > 0))
            || (decide (delta_midpoint.y_nm > 0) != decide (delta.y_nm > 0)) then
          (false, false,
            if |delta.x_nm| < |delta.y_nm| then break_vertical else break_horizontal)
        else
          (prefer_horizontal, prefer_vertical, midpoint0)
      else
        (prefer_horizontal, prefer_vertical, midpoint0)
    if !state1.1 && !state1.2.1 then
      if |delta.x_nm| < |delta.y_nm| then break_vertical else break_horizontal
    else
      state1.2.2

/-- `SmartRoutingEngine._get_routing_preferences`:
returns `(prefer_horizontal, prefer_vertical)`. -/
def _get_routing_preferences (start_pin end_pin : Pin) : Bool × Bool :=
  if |start_pin.position.y_nm - end_pin.position.y_nm| < grid_size_nm then
    (true, false)
  else if |start_pin.position.x_nm - end_pin.position.x_nm| < grid_size_nm then
    (false, true)
  else
    let start_is_horizontal := start_pin.orientation = 0 ∨ start_pin.orientation = 2
    let end_is_horizontal := end_pin.orientation = 0 ∨ end_pin.orientation = 2
    if start_is_horizontal ∧ end_is_horizontal then
      (false, true)
    else
      let start_is_vertical := start_pin.orientation = 1 ∨ start_pin.orientation = 3
      let end_is_vertical := end_pin.orientation = 1 ∨ end_pin.orientation = 3
      if start_is_vertical ∧ end_is_vertical then
        (true, false)
      else
        (false, false)

/-- `SmartRoutingEngine._generate_direct_manhattan_path`. -/
noncomputable def _generate_direct_manhattan_path (start_pin end_pin : Pin)
    (_avoid_components : List SchSymbol) : RoutingPath :=
  let start_pos := start_pin.get_connection_point
  let end_pos := end_pin.get_connection_point
  let prefs := _get_routing_preferences start_pin end_pin
  let break_point :=
    compute_break_point start_pos end_pos RoutingMode.MANHATTAN prefs.1 prefs.2
  let segments := [(start_pos, break_point), (break_point, end_pos)]
  let total_length :=
    start_pos.distance_to break_point + break_point.distance_to end_pos
  { start_pin := some start_pin
    end_pin := some end_pin
    segments := segments
    total_length := total_length
    mode := RoutingMode.MANHATTAN
    quality_score := 1000000.0 / (total_length + 1.0) }

/-- `SmartRoutingEngine.generate_manhattan_path` (same body as
`_generate_direct_manhattan_path` in the source). -/
noncomputable def generate_manhattan_path (start_pin end_pin : Pin)
    (_avoid_components : List SchSymbol) : RoutingPath :=
  let start_pos := start_pin.get_connection_point
  let end_pos := end_pin.get_connection_point
  let prefs := _get_routing_preferences start_pin end_pin
  let break_point :=
    compute_break_point start_pos end_pos RoutingMode.MANHATTAN prefs.1 prefs.2
  let segments := [(start_pos, break_point), (break_point, end_pos)]
  let total_length :=
    start_pos.distance_to break_point + break_point.distance_to end_pos
  { start_pin := some start_pin
    end_pin := some end_pin
    segments := segments
    total_length := total_length
    mode := RoutingMode.MANHATTAN
    quality_score := 1000000.0 / (total_length + 1.0) }

/-- `SmartRoutingEngine._analyze_bus_structures`: keep axis-aligned `WIRE`
wires of length at least 5 mm and sort descending by length (stable). -/
def _analyze_bus_structures (existing_wires : List Wire) : List BusStructure :=
  let min_bus_length : Int := 5000000
  let buses := existing_wires.filterMap (fun wire =>
    if wire.layer_type ≠ "WIRE" then none
    else if wire.length_nm < min_bus_length then none
    else if wire.is_horizontal then
      some { bus_type := "horizontal"
             id := wire.id
             coordinate := wire.start_p.y_nm
             range_start := min wire.start_p.x_nm wire.end_p.x_nm
             range_end := max wire.start_p.x_nm wire.end_p.x_nm
             length_nm := wire.length_nm
             start_pos := wire.start_p
             end_pos := wire.end_p }
    else if wire.is_vertical then
      some { bus_type := "vertical"
             id := wire.id
             coordinate := wire.start_p.x_nm
             range_start := min wire.start_p.y_nm wire.end_p.y_nm
             range_end := max wire.start_p.y_nm wire.end_p.y_nm
             length_nm := wire.length_nm
             start_pos := wire.start_p
             end_pos := wire.end_p }
    else none)
  buses.mergeSort (fun a b => decide (b.length_nm ≤ a.length_nm))

open Classical in
/-- `SmartRoutingEngine._find_optimal_bus_connection_point`. -/
noncomputable def _find_optimal_bus_connection_point (start_pos end_pos : Position)
    (bus : BusStructure) : Option Position :=
  if bus.bus_type = "horizontal" then
    let bus_y := bus.coordinate
    let start_aligned := |start_pos.y_nm - bus_y| < 100000
    let end_aligned := |end_pos.y_nm - bus_y| < 100000
    if start_aligned then
      some ⟨max bus.range_start (min bus.range_end start_pos.x_nm), bus_y⟩
    else if end_aligned then
      some ⟨max bus.range_start (min bus.range_end end_pos.x_nm), bus_y⟩
    else
      let optimal_x := Int.fdiv (start_pos.x_nm + end_pos.x_nm) 2
      some ⟨max bus.range_start (min bus.range_end optimal_x), bus_y⟩
  else if bus.bus_type = "vertical" then
    let bus_x := bus.coordinate
    let start_y_clamped := max bus.range_start (min bus.range_end start_pos.y_nm)
    let end_y_clamped := max bus.range_start (min bus.range_end end_pos.y_nm)
    let start_connection : Position := ⟨bus_x, start_y_clamped⟩
    let start_total_length :=
      start_pos.distance_to start_connection + start_connection.distance_to end_pos
    let end_connection : Position := ⟨bus_x, end_y_clamped⟩
    let end_total_length :=
      start_pos.distance_to end_connection + end_connection.distance_to end_pos
    if start_total_length ≤ end_total_length then
      some start_connection
    else
      some end_connection
  else
    none

open Classical in
/-- `SmartRoutingEngine._generate_bus_routing_path`: multi-hop routing
`pin → bus → destination`, keeping the shortest candidate
(`best_length` starts at `float('inf')`, modelled by the `none` case). -/
noncomputable def _generate_bus_routing_path (start_pos end_pos : Position)
    (bus_structures : List BusStructure) : Option RoutingPath :=
  bus_structures.foldl (fun best bus =>
    match _find_optimal_bus_connection_point start_pos end_pos bus with
    | none => best
    | some connection_point =>
      let leg1_length := start_pos.distance_to connection_point
      let leg2_length := connection_point.distance_to end_pos
      let total_length := leg1_length + leg2_length
      if (match best with
          | none => True
          | some bp => total_length < bp.total_length) then
        let first_leg : List (Position × Position) :=
          if start_pos.x_nm ≠ connection_point.x_nm ∧
              start_pos.y_nm ≠ connection_point.y_nm then
            [(start_pos, ⟨connection_point.x_nm, start_pos.y_nm⟩),
             (⟨connection_point.x_nm, start_pos.y_nm⟩, connection_point)]
          else
            [(start_pos, connection_point)]
        let segments : List (Position × Position) :=
          if connection_point.x_nm ≠ end_pos.x_nm ∨
              connection_point.y_nm ≠ end_pos.y_nm then
            first_leg ++ [(connection_point, end_pos)]
          else
            first_leg
        some { start_pin := none
               end_pin := none
               segments := segments
               total_length := total_length
               mode := RoutingMode.MANHATTAN
               quality_score := 1000000.0 / (total_length + 1.0)
               bus_used := some bus.id }
      else best) none

open Classical in
/-- `SmartRoutingEngine._is_better_path`: `none` models the
`ZeroDivisionError` raised when the direct path has length `0.0`. -/
noncomputable def _is_better_path (bus_path direct_path : RoutingPath) : Option Bool :=
  if direct_path.total_length = 0 then none
  else
    let length_improvement :=
      (direct_path.total_length - bus_path.total_length) / direct_path.total_length
    if length_improvement > 0.1 then some true
    else if length_improvement > 0.05 ∧
        bus_path.total_length < direct_path.total_length then some true
    else some false

/-- `SmartRoutingEngine.generate_bus_aware_manhattan_path`. -/
noncomputable def generate_bus_aware_manhattan_path (start_pin end_pin : Pin)
    (avoid_components : List SchSymbol) (existing_wires : List Wire) :
    Option RoutingPath :=
  let start_pos := start_pin.get_connection_point
  let end_pos := end_pin.get_connection_point
  let bus_structures := _analyze_bus_structures existing_wires
  let direct_path := _generate_direct_manhattan_path start_pin end_pin avoid_components
  if bus_structures ≠ [] then
    match _generate_bus_routing_path start_pos end_pos bus_structures with
    | some bus_aware_path =>
      match _is_better_path bus_aware_path direct_path with
      | none => none
      | some true =>
        some { bus_aware_path with start_pin := some start_pin, end_pin := some end_pin }
      | some false => some direct_path
    | none => some direct_path
  else
    some direct_path

/-- Helper: the Manhattan-mode break point is one of the two L-corners. -/
theorem compute_break_point_manhattan_eq (s e : Position) (ph pv : Bool) :
    compute_break_point s e RoutingMode.MANHATTAN ph pv =
      (if pv then (⟨s.x_nm, e.y_nm⟩ : Position)
       else if ph then ⟨e.x_nm, s.y_nm⟩
       else if |e.x_nm - s.x_nm| < |e.y_nm - s.y_nm| then ⟨s.x_nm, e.y_nm⟩
       else ⟨e.x_nm, s.y_nm⟩) := by
  cases pv <;> cases ph <;> simp [compute_break_point]

/-- C1. In Manhattan mode, `compute_break_point` returns `(start.x, end.y)`
when `prefer_vertical` is set, `(end.x, start.y)` when only
`prefer_horizontal` is set, and otherwise chooses by comparing `|dx|` with
`|dy|`: vertical-first `(start.x, end.y)` when `|dx| < |dy|`, else
horizontal-first `(end.x, start.y)`. -/
theorem C1_compute_break_point_manhattan (s e : Position) (ph pv : Bool) :
    compute_break_point s e RoutingMode.MANHATTAN ph pv =
      (if pv then (⟨s.x_nm, e.y_nm⟩ : Position)
       else if ph then ⟨e.x_nm, s.y_nm⟩
       else if |e.x_nm - s.x_nm| < |e.y_nm - s.y_nm| then ⟨s.x_nm, e.y_nm⟩
       else ⟨e.x_nm, s.y_nm⟩) :=
  compute_break_point_manhattan_eq s e ph pv

/-- Types of bounding boxes available from the KiCad API (`BoundingBoxType`). -/
inductive BoundingBoxType where
  | BODY_ONLY
  | BODY_PINS
  | FULL
deriving DecidableEq

/-- Component bounding rectangle for collision detection (`BoundingBox`). -/
structure BoundingBox where
  top_left : Position
  bottom_right : Position
  symbol_id : String
  bbox_type : BoundingBoxType
deriving DecidableEq

/-- `BoundingBox.width`. -/
def BoundingBox.width (b : BoundingBox) : Int :=
  b.bottom_right.x_nm - b.top_left.x_nm

/-- `BoundingBox.height`. -/
def BoundingBox.height (b : BoundingBox) : Int :=
  b.bottom_right.y_nm - b.top_left.y_nm

/-- `BoundingBox.center` (integer floor division `//`). -/
def BoundingBox.center (b : BoundingBox) : Position :=
  ⟨Int.fdiv (b.top_left.x_nm + b.bottom_right.x_nm) 2,
   Int.fdiv (b.top_left.y_nm + b.bottom_right.y_nm) 2⟩

/-- `BoundingBox.contains_point`. -/
def BoundingBox.contains_point (b : BoundingBox) (point : Position) : Prop :=
  b.top_left.x_nm ≤ point.x_nm ∧ point.x_nm ≤ b.bottom_right.x_nm ∧
  b.top_left.y_nm ≤ point.y_nm ∧ point.y_nm ≤ b.bottom_right.y_nm

instance (b : BoundingBox) (p : Position) : Decidable (b.contains_point p) := by
  unfold BoundingBox.contains_point; infer_instance

/-- The `compute_outcode` closure of `_line_intersects_rectangle`
(Cohen-Sutherland outcodes: INSIDE=0, LEFT=1, RIGHT=2, BOTTOM=4, TOP=8,
with `BOTTOM` meaning `y < top_left.y` and `TOP` meaning
`y > bottom_right.y`, exactly as in the source). -/
def compute_outcode (b : BoundingBox) (x y : Int) : Nat :=
  let code0 : Nat := 0
  let code1 : Nat :=
    if x < b.top_left.x_nm then code0 ||| 1
    else if x > b.bottom_right.x_nm then code0 ||| 2
    else code0
  let code2 : Nat :=
    if y < b.top_left.y_nm then code1 ||| 4
    else if y > b.bottom_right.y_nm then code1 ||| 8
    else code1
  code2

/-- One iteration of the `while True` loop of
`BoundingBox._line_intersects_rectangle`.  `some (Sum.inl r)` is a `return r`,
`some (Sum.inr (p1, p2))` continues with clipped endpoints, and `none` models
a Python `ZeroDivisionError` in the interpolation (`//` is floor division). -/
def csStep (b : BoundingBox) (p1 p2 : Position) :
    Option (Bool ⊕ (Position × Position)) :=
  let outcode1 := compute_outcode b p1.x_nm p1.y_nm
  let outcode2 := compute_outcode b p2.x_nm p2.y_nm
  if outcode1 ||| outcode2 = 0 then
    some (Sum.inl true)
  else if outcode1 &&& outcode2 ≠ 0 then
    some (Sum.inl false)
  else
    let outcode_out := if outcode1 ≠ 0 then outcode1 else outcode2
    let xy : Option (Int × Int) :=
      if outcode_out &&& 8 ≠ 0 then
        if p2.y_nm - p1.y_nm = 0 then none
        else some (p1.x_nm + Int.fdiv ((p2.x_nm - p1.x_nm) * (b.bottom_right.y_nm - p1.y_nm)) (p2.y_nm - p1.y_nm),
          b.bottom_right.y_nm)
      else if outcode_out &&& 4 ≠ 0 then
        if p2.y_nm - p1.y_nm = 0 then none
        else some (p1.x_nm + Int.fdiv ((p2.x_nm - p1.x_nm) * (b.top_left.y_nm - p1.y_nm)) (p2.y_nm - p1.y_nm),
          b.top_left.y_nm)
      else if outcode_out &&& 2 ≠ 0 then
        if p2.x_nm - p1.x_nm = 0 then none
        else some (b.bottom_right.x_nm,
          p1.y_nm + Int.fdiv ((p2.y_nm - p1.y_nm) * (b.bottom_right.x_nm - p1.x_nm)) (p2.x_nm - p1.x_nm))
      else if outcode_out &&& 1 ≠ 0 then
        if p2.x_nm - p1.x_nm = 0 then none
        else some (b.top_left.x_nm,
          p1.y_nm + Int.fdiv ((p2.y_nm - p1.y_nm) * (b.top_left.x_nm - p1.x_nm)) (p2.x_nm - p1.x_nm))
      else
        some (0, 0)
    match xy with
    | none => none
    | some (x, y) =>
      if outcode_out = outcode1 then
        some (Sum.inr (⟨x, y⟩, p2))
      else
        some (Sum.inr (p1, ⟨x, y⟩))

/-- The `while True` loop of `_line_intersects_rectangle` with fuel. -/
def csLoop (b : BoundingBox) : Nat → Position → Position → Option Bool
  | 0, _, _ => none
  | n + 1, p1, p2 =>
    match csStep b p1 p2 with
    | none => none
    | some (Sum.inl r) => some r
    | some (Sum.inr (q1, q2)) => csLoop b n q1 q2

/-- Fuel used for `intersects_line`; the termination theorem shows it is
enough for every well-formed box. -/
def csFuel : Nat := 8

/-- `BoundingBox.intersects_line` / `_line_intersects_rectangle`.
`none` means the Python loop would raise or not terminate within `csFuel`. -/
def BoundingBox.intersects_line (b : BoundingBox) (start e : Position) : Option Bool :=
  csLoop b csFuel start e

/-- `BoundingBox.expand`: expanded box with clearance margin. -/
def BoundingBox.expand (b : BoundingBox) (margin_nm : Int) : BoundingBox :=
  { top_left := ⟨b.top_left.x_nm - margin_nm, b.top_left.y_nm - margin_nm⟩
    bottom_right := ⟨b.bottom_right.x_nm + margin_nm, b.bottom_right.y_nm + margin_nm⟩
    symbol_id := b.symbol_id
    bbox_type := b.bbox_type }

/-- Result of collision detection analysis (`CollisionResult`). -/
structure CollisionResult where
  has_collision : Bool
  colliding_components : List String
  collision_points : List Position
  suggested_clearance : Int
deriving DecidableEq

/-- `ComponentBoundaryManager` state: its clearance and the
`component_boundaries` dict (an insertion-ordered association list). -/
structure ComponentBoundaryManager where
  clearance_nm : Int := 635000
  component_boundaries : List (String × BoundingBox) := []
deriving DecidableEq

/-- Assignment `d[k] = v` on an insertion-ordered dict: replaces the value in
place when the key exists, otherwise appends. -/
def dict_insert (l : List (String × BoundingBox)) (k : String) (v : BoundingBox) :
    List (String × BoundingBox) :=
  match l with
  | [] => [(k, v)]
  | (k', v') :: rest =>
    if k' = k then (k, v) :: rest else (k', v') :: dict_insert rest k v

/-- `ComponentBoundaryManager.add_component_boundary`: estimates the
boundary from pin extents (fixed 1.27 mm half-width box when the symbol has
no pins, min/max pin extent plus a 0.635 mm body margin otherwise). -/
def add_component_boundary (m : ComponentBoundaryManager) (symbol : SchSymbol)
    (bbox_type : BoundingBoxType) : ComponentBoundaryManager :=
  let bbox : BoundingBox :=
    match symbol.pins with
    | [] =>
      let margin : Int := 1270000
      { top_left := ⟨symbol.position.x_nm - margin, symbol.position.y_nm - margin⟩
        bottom_right := ⟨symbol.position.x_nm + margin, symbol.position.y_nm + margin⟩
        symbol_id := symbol.id
        bbox_type := bbox_type }
    | p :: ps =>
      let min_x := (ps.map (fun pin => pin.position.x_nm)).foldl min p.position.x_nm
      let max_x := (ps.map (fun pin => pin.position.x_nm)).foldl max p.position.x_nm
      let min_y := (ps.map (fun pin => pin.position.y_nm)).foldl min p.position.y_nm
      let max_y := (ps.map (fun pin => pin.position.y_nm)).foldl max p.position.y_nm
      let body_margin : Int := 635000
      { top_left := ⟨min_x - body_margin, min_y - body_margin⟩
        bottom_right := ⟨max_x + body_margin, max_y + body_margin⟩
        symbol_id := symbol.id
        bbox_type := bbox_type }
  { m with component_boundaries := dict_insert m.component_boundaries symbol.id bbox }

/-- Inner loop of `check_path_collision` over the `component_boundaries`
dict for one path segment, accumulating `(colliding_components,
collision_points)`.  A `none` result propagates a failure of
`intersects_line`. -/
def collide_boxes (clearance_nm : Int) (exclude_pins : List String)
    (seg_start seg_end : Position) :
    List (String × BoundingBox) → List String × List Position →
    Option (List String × List Position)
  | [], acc => some acc
  | (symbol_id, bbox) :: rest, acc =>
    if symbol_id ∈ exclude_pins then
      collide_boxes clearance_nm exclude_pins seg_start seg_end rest acc
    else
      match (bbox.expand clearance_nm).intersects_line seg_start seg_end with
      | none => none
      | some true =>
        collide_boxes clearance_nm exclude_pins seg_start seg_end rest
          (acc.1 ++ [symbol_id], acc.2 ++ [bbox.center])
      | some false =>
        collide_boxes clearance_nm exclude_pins seg_start seg_end rest acc

/-- Outer loop of `check_path_collision` over the path segments. -/
def collide_segments (clearance_nm : Int) (exclude_pins : List String)
    (boxes : List (String × BoundingBox)) :
    List (Position × Position) → List String × List Position →
    Option (List String × List Position)
  | [], acc => some acc
  | (seg_start, seg_end) :: rest, acc =>
    match collide_boxes clearance_nm exclude_pins seg_start seg_end boxes acc with
    | none => none
    | some acc' => collide_segments clearance_nm exclude_pins boxes rest acc'

/-- `ComponentBoundaryManager.check_path_collision`.  The returned manager is
the state after the call (the method performs no writes to `self`); the
`list(set(...))` deduplication is modelled by `List.dedup`. -/
def check_path_collision (m : ComponentBoundaryManager) (path : RoutingPath)
    (exclude_pins : List String) : Option (CollisionResult × ComponentBoundaryManager) :=
  match collide_segments m.clearance_nm exclude_pins m.component_boundaries
      path.segments ([], []) with
  | none => none
  | some (colliding_components, collision_points) =>
    some ({ has_collision := decide (colliding_components.length > 0)
            colliding_components := colliding_components.dedup
            collision_points := collision_points
            suggested_clearance := m.clearance_nm * 2 }, m)

/-- `ComponentBoundaryManager.find_components_in_region`. -/
def find_components_in_region (m : ComponentBoundaryManager)
    (region_start region_end : Position) : List BoundingBox :=
  let min_x := min region_start.x_nm region_end.x_nm
  let max_x := max region_start.x_nm region_end.x_nm
  let min_y := min region_start.y_nm region_end.y_nm
  let max_y := max region_start.y_nm region_end.y_nm
  let region_bbox : BoundingBox :=
    { top_left := ⟨min_x, min_y⟩
      bottom_right := ⟨max_x, max_y⟩
      symbol_id := "region"
      bbox_type := BoundingBoxType.FULL }
  (m.component_boundaries.map Prod.snd).filter (fun bbox =>
    decide (bbox.top_left.x_nm ≤ region_bbox.bottom_right.x_nm) &&
    decide (bbox.bottom_right.x_nm ≥ region_bbox.top_left.x_nm) &&
    decide (bbox.top_left.y_nm ≤ region_bbox.bottom_right.y_nm) &&
    decide (bbox.bottom_right.y_nm ≥ region_bbox.top_left.y_nm))

/-- The dictionary returned by `optimize_routing_corridor`. -/
structure CorridorInfo where
  corridor_length_nm : ℝ
  component_count : Nat
  obstacle_density : ℚ
  suggested_strategy : String
  clearance_required_nm : Int
  components_in_path : List String

/-- `ComponentBoundaryManager.optimize_routing_corridor`: obstacle density of
the corridor rectangle (Python float division modelled exactly on `ℚ`,
with the source's division-by-zero guard) and the derived strategy label. -/
noncomputable def optimize_routing_corridor (m : ComponentBoundaryManager)
    (start e : Position) : CorridorInfo :=
  let corridor_components := find_components_in_region m start e
  let corridor_length := start.distance_to e
  let obstacle_area : Int :=
    (corridor_components.map (fun bbox => bbox.width * bbox.height)).foldl (· + ·) 0
  let corridor_area := |e.x_nm - start.x_nm| * |e.y_nm - start.y_nm|
  let obstacle_density : ℚ :=
    if corridor_area > 0 then (obstacle_area : ℚ) / (corridor_area : ℚ) else 0
  let strategy :=
    if obstacle_density < 0.1 then "direct"
    else if obstacle_density < 0.3 then "simple_detour"
    else "complex_multi_segment"
  { corridor_length_nm := corridor_length
    component_count := corridor_components.length
    obstacle_density := obstacle_density
    suggested_strategy := strategy
    clearance_required_nm := m.clearance_nm
    components_in_path := corridor_components.map (fun bbox => bbox.symbol_id) }

/-! ### Floor-division helper lemmas (Python `//` is `Int.fdiv`) -/

/-- Flooring division is invariant under negating both operands. -/
theorem fdiv_neg_neg (a b : Int) : Int.fdiv (-a) (-b) = Int.fdiv a b := by
  cases a with
  | ofNat m =>
    cases m with
    | zero =>
      rw [show (Int.ofNat 0 : Int) = 0 from rfl, neg_zero, Int.zero_fdiv,
        Int.zero_fdiv]
    | succ m =>
      cases b with
      | ofNat n => cases n with
        | zero =>
          rw [show (Int.ofNat 0 : Int) = 0 from rfl, neg_zero, Int.fdiv_zero,
            Int.fdiv_zero]
        | succ n => rfl
      | negSucc n => rfl
  | negSucc m =>
    cases b with
    | ofNat n => cases n with
      | zero =>
        rw [show (Int.ofNat 0 : Int) = 0 from rfl, neg_zero, Int.fdiv_zero,
          Int.fdiv_zero]
      | succ n => rfl
    | negSucc n => rfl

theorem le_fdiv_of_mul_le {d m n : ℤ} (hd : 0 < d) (h : m * d ≤ n) :
    m ≤ Int.fdiv n d := by
  have h2 := Int.lt_fdiv_add_one_mul_self n hd
  have h3 : m * d < (Int.fdiv n d + 1) * d := lt_of_le_of_lt h h2
  have h4 : m < Int.fdiv n d + 1 := lt_of_mul_lt_mul_right h3 (le_of_lt hd)
  omega

theorem fdiv_le_of_le_mul {d M n : ℤ} (hd : 0 < d) (h : n ≤ M * d) :
    Int.fdiv n d ≤ M := by
  have h1 := Int.fmod_add_fdiv n d
  have h2 := Int.fmod_nonneg' n hd
  have h3 : Int.fdiv n d * d ≤ M * d := by nlinarith
  exact le_of_mul_le_mul_right h3 hd

theorem le_fdiv_of_neg {d m n : ℤ} (hd : d < 0) (h : n ≤ m * d) :
    m ≤ Int.fdiv n d := by
  rw [← fdiv_neg_neg n d]
  exact le_fdiv_of_mul_le (by omega) (by nlinarith)

theorem fdiv_le_of_neg {d M n : ℤ} (hd : d < 0) (h : M * d ≤ n) :
    Int.fdiv n d ≤ M := by
  rw [← fdiv_neg_neg n d]
  exact fdiv_le_of_le_mul (by omega) (by nlinarith)

/-- The Cohen-Sutherland interpolation `(c * num) // den` stays between `0`
and `c` when `0 ≤ num ≤ den` (positive divisor case). -/
theorem interp_fdiv_mem_pos {c num den : ℤ} (h0 : 0 ≤ num) (h1 : num ≤ den)
    (h2 : 0 < den) :
    min 0 c ≤ Int.fdiv (c * num) den ∧ Int.fdiv (c * num) den ≤ max 0 c := by
  rcases le_or_lt 0 c with hc | hc
  · constructor
    · exact le_trans (min_le_left 0 c)
        (le_fdiv_of_mul_le h2 (by nlinarith))
    · exact le_trans (fdiv_le_of_le_mul h2 (by nlinarith)) (le_max_right 0 c)
  · constructor
    · exact le_trans (min_le_right 0 c)
        (le_fdiv_of_mul_le h2 (by nlinarith))
    · exact le_trans (fdiv_le_of_le_mul h2 (by nlinarith)) (le_max_left 0 c)

/-- The interpolation `(c * num) // den` stays between `0` and `c` when
`den ≤ num ≤ 0` (negative divisor case). -/
theorem interp_fdiv_mem_neg {c num den : ℤ} (h0 : num ≤ 0) (h1 : den ≤ num)
    (h2 : den < 0) :
    min 0 c ≤ Int.fdiv (c * num) den ∧ Int.fdiv (c * num) den ≤ max 0 c := by
  rcases le_or_lt 0 c with hc | hc
  · constructor
    · exact le_trans (min_le_left 0 c) (le_fdiv_of_neg h2 (by nlinarith))
    · exact le_trans (fdiv_le_of_neg h2 (by nlinarith)) (le_max_right 0 c)
  · constructor
    · exact le_trans (min_le_right 0 c) (le_fdiv_of_neg h2 (by nlinarith))
    · exact le_trans (fdiv_le_of_neg h2 (by nlinarith)) (le_max_left 0 c)

/-! ### Outcode decoding lemmas -/

theorem outcode_lt_16 (b : BoundingBox) (x y : Int) : compute_outcode b x y < 16 := by
  unfold compute_outcode
  split_ifs <;> decide

theorem nat16_or_ne_zero : ∀ a < 16, ∀ b < 16, a ≠ 0 → a ||| b ≠ 0 := by decide

theorem nat16_and_ne_or_ne : ∀ a < 16, ∀ b < 16, a &&& b ≠ 0 → a ||| b ≠ 0 := by decide

theorem outcode_val_0 {b : BoundingBox} {x y : Int}
    (hx1 : ¬x < b.top_left.x_nm) (hx2 : ¬x > b.bottom_right.x_nm)
    (hy1 : ¬y < b.top_left.y_nm) (hy2 : ¬y > b.bottom_right.y_nm) :
    compute_outcode b x y = 0 := by
  unfold compute_outcode
  split_ifs <;> first | decide | omega

theorem outcode_val_1 {b : BoundingBox} {x y : Int}
    (hx1 : x < b.top_left.x_nm)
    (hy1 : ¬y < b.top_left.y_nm) (hy2 : ¬y > b.bottom_right.y_nm) :
    compute_outcode b x y = 1 := by
  unfold compute_outcode
  split_ifs <;> first | decide | omega

theorem outcode_val_2 {b : BoundingBox} {x y : Int}
    (hx1 : ¬x < b.top_left.x_nm) (hx2 : x > b.bottom_right.x_nm)
    (hy1 : ¬y < b.top_left.y_nm) (hy2 : ¬y > b.bottom_right.y_nm) :
    compute_outcode b x y = 2 := by
  unfold compute_outcode
  split_ifs <;> first | decide | omega

theorem outcode_val_4 {b : BoundingBox} {x y : Int}
    (hx1 : ¬x < b.top_left.x_nm) (hx2 : ¬x > b.bottom_right.x_nm)
    (hy1 : y < b.top_left.y_nm) :
    compute_outcode b x y = 4 := by
  unfold compute_outcode
  split_ifs <;> first | decide | omega

theorem outcode_val_5 {b : BoundingBox} {x y : Int}
    (hx1 : x < b.top_left.x_nm) (hy1 : y < b.top_left.y_nm) :
    compute_outcode b x y = 5 := by
  unfold compute_outcode
  split_ifs <;> first | decide | omega

theorem outcode_val_6 {b : BoundingBox} {x y : Int}
    (hx1 : ¬x < b.top_left.x_nm) (hx2 : x > b.bottom_right.x_nm)
    (hy1 : y < b.top_left.y_nm) :
    compute_outcode b x y = 6 := by
  unfold compute_outcode
  split_ifs <;> first | decide | omega

theorem outcode_val_8 {b : BoundingBox} {x y : Int}
    (hx1 : ¬x < b.top_left.x_nm) (hx2 : ¬x > b.bottom_right.x_nm)
    (hy1 : ¬y < b.top_left.y_nm) (hy2 : y > b.bottom_right.y_nm) :
    compute_outcode b x y = 8 := by
  unfold compute_outcode
  split_ifs <;> first | decide | omega

theorem outcode_val_9 {b : BoundingBox} {x y : Int}
    (hx1 : x < b.top_left.x_nm)
    (hy1 : ¬y < b.top_left.y_nm) (hy2 : y > b.bottom_right.y_nm) :
    compute_outcode b x y = 9 := by
  unfold compute_outcode
  split_ifs <;> first | decide | omega

theorem outcode_val_10 {b : BoundingBox} {x y : Int}
    (hx1 : ¬x < b.top_left.x_nm) (hx2 : x > b.bottom_right.x_nm)
    (hy1 : ¬y < b.top_left.y_nm) (hy2 : y > b.bottom_right.y_nm) :
    compute_outcode b x y = 10 := by
  unfold compute_outcode
  split_ifs <;> first | decide | omega

/-- Two outcodes share a bit exactly when the two points lie beyond the same
side of the rectangle (for a well-formed box the `elif` chains make the four
side conditions pairwise exclusive). -/
theorem outcode_and_ne_zero_iff {b : BoundingBox} (x1 y1 x2 y2 : Int)
    (hwfx : b.top_left.x_nm ≤ b.bottom_right.x_nm)
    (hwfy : b.top_left.y_nm ≤ b.bottom_right.y_nm) :
    compute_outcode b x1 y1 &&& compute_outcode b x2 y2 ≠ 0 ↔
      ((x1 < b.top_left.x_nm ∧ x2 < b.top_left.x_nm) ∨
       (x1 > b.bottom_right.x_nm ∧ x2 > b.bottom_right.x_nm) ∨
       (y1 < b.top_left.y_nm ∧ y2 < b.top_left.y_nm) ∨
       (y1 > b.bottom_right.y_nm ∧ y2 > b.bottom_right.y_nm)) := by
  unfold compute_outcode
  split_ifs <;> constructor <;> intro h <;>
    first
      | omega
      | (exact absurd (by decide) h)
      | (exfalso; omega)
      | decide

/-! ### Evaluation lemmas for one Cohen-Sutherland iteration -/

theorem csLoop_succ (b : BoundingBox) (n : Nat) (p1 p2 : Position) :
    csLoop b (n + 1) p1 p2 =
      match csStep b p1 p2 with
      | none => none
      | some (Sum.inl r) => some r
      | some (Sum.inr (q1, q2)) => csLoop b n q1 q2 := rfl

theorem csStep_true {b : BoundingBox} {p1 p2 : Position}
    (h1 : compute_outcode b p1.x_nm p1.y_nm = 0)
    (h2 : compute_outcode b p2.x_nm p2.y_nm = 0) :
    csStep b p1 p2 = some (Sum.inl true) := by
  simp only [csStep]
  rw [h1, h2]
  rfl

theorem csStep_false {b : BoundingBox} {p1 p2 : Position}
    (h : compute_outcode b p1.x_nm p1.y_nm &&& compute_outcode b p2.x_nm p2.y_nm ≠ 0) :
    csStep b p1 p2 = some (Sum.inl false) := by
  have hor : compute_outcode b p1.x_nm p1.y_nm ||| compute_outcode b p2.x_nm p2.y_nm ≠ 0 :=
    nat16_and_ne_or_ne _ (outcode_lt_16 b p1.x_nm p1.y_nm) _
      (outcode_lt_16 b p2.x_nm p2.y_nm) h
  simp only [csStep]
  rw [if_neg hor, if_pos h]

theorem csStep_eval_top1 {b : BoundingBox} {p1 p2 : Position} {v : Nat}
    (hv : compute_outcode b p1.x_nm p1.y_nm = v)
    (hvne : v ≠ 0) (hv8 : v &&& 8 ≠ 0)
    (hand : v &&& compute_outcode b p2.x_nm p2.y_nm = 0)
    (hdiv : p2.y_nm - p1.y_nm ≠ 0) :
    csStep b p1 p2 = some (Sum.inr
      (⟨p1.x_nm + Int.fdiv ((p2.x_nm - p1.x_nm) * (b.bottom_right.y_nm - p1.y_nm)) (p2.y_nm - p1.y_nm),
        b.bottom_right.y_nm⟩, p2)) := by
  have h16 : v < 16 := hv ▸ outcode_lt_16 b p1.x_nm p1.y_nm
  have hor : v ||| compute_outcode b p2.x_nm p2.y_nm ≠ 0 :=
    nat16_or_ne_zero v h16 _ (outcode_lt_16 b p2.x_nm p2.y_nm) hvne
  simp only [csStep]
  rw [hv, if_neg hor, if_neg (show ¬(v &&& compute_outcode b p2.x_nm p2.y_nm ≠ 0) from
    fun hne => hne hand), if_pos hvne, if_pos hv8, if_neg hdiv]
  simp

theorem csStep_eval_bot1 {b : BoundingBox} {p1 p2 : Position} {v : Nat}
    (hv : compute_outcode b p1.x_nm p1.y_nm = v)
    (hvne : v ≠ 0) (hv8 : v &&& 8 = 0) (hv4 : v &&& 4 ≠ 0)
    (hand : v &&& compute_outcode b p2.x_nm p2.y_nm = 0)
    (hdiv : p2.y_nm - p1.y_nm ≠ 0) :
    csStep b p1 p2 = some (Sum.inr
      (⟨p1.x_nm + Int.fdiv ((p2.x_nm - p1.x_nm) * (b.top_left.y_nm - p1.y_nm)) (p2.y_nm - p1.y_nm),
        b.top_left.y_nm⟩, p2)) := by
  have h16 : v < 16 := hv ▸ outcode_lt_16 b p1.x_nm p1.y_nm
  have hor : v ||| compute_outcode b p2.x_nm p2.y_nm ≠ 0 :=
    nat16_or_ne_zero v h16 _ (outcode_lt_16 b p2.x_nm p2.y_nm) hvne
  simp only [csStep]
  rw [hv, if_neg hor, if_neg (show ¬(v &&& compute_outcode b p2.x_nm p2.y_nm ≠ 0) from
    fun hne => hne hand), if_pos hvne,
    if_neg (show ¬(v &&& 8 ≠ 0) from fun hne => hne hv8), if_pos hv4, if_neg hdiv]
  simp

theorem csStep_eval_right1 {b : BoundingBox} {p1 p2 : Position} {v : Nat}
    (hv : compute_outcode b p1.x_nm p1.y_nm = v)
    (hvne : v ≠ 0) (hv8 : v &&& 8 = 0) (hv4 : v &&& 4 = 0) (hv2 : v &&& 2 ≠ 0)
    (hand : v &&& compute_outcode b p2.x_nm p2.y_nm = 0)
    (hdiv : p2.x_nm - p1.x_nm ≠ 0) :
    csStep b p1 p2 = some (Sum.inr
      (⟨b.bottom_right.x_nm,
        p1.y_nm + Int.fdiv ((p2.y_nm - p1.y_nm) * (b.bottom_right.x_nm - p1.x_nm)) (p2.x_nm - p1.x_nm)⟩,
       p2)) := by
  have h16 : v < 16 := hv ▸ outcode_lt_16 b p1.x_nm p1.y_nm
  have hor : v ||| compute_outcode b p2.x_nm p2.y_nm ≠ 0 :=
    nat16_or_ne_zero v h16 _ (outcode_lt_16 b p2.x_nm p2.y_nm) hvne
  simp only [csStep]
  rw [hv, if_neg hor, if_neg (show ¬(v &&& compute_outcode b p2.x_nm p2.y_nm ≠ 0) from
    fun hne => hne hand), if_pos hvne,
    if_neg (show ¬(v &&& 8 ≠ 0) from fun hne => hne hv8),
    if_neg (show ¬(v &&& 4 ≠ 0) from fun hne => hne hv4), if_pos hv2, if_neg hdiv]
  simp

theorem csStep_eval_left1 {b : BoundingBox} {p1 p2 : Position} {v : Nat}
    (hv : compute_outcode b p1.x_nm p1.y_nm = v)
    (hvne : v ≠ 0) (hv8 : v &&& 8 = 0) (hv4 : v &&& 4 = 0) (hv2 : v &&& 2 = 0)
    (hv1 : v &&& 1 ≠ 0)
    (hand : v &&& compute_outcode b p2.x_nm p2.y_nm = 0)
    (hdiv : p2.x_nm - p1.x_nm ≠ 0) :
    csStep b p1 p2 = some (Sum.inr
      (⟨b.top_left.x_nm,
        p1.y_nm + Int.fdiv ((p2.y_nm - p1.y_nm) * (b.top_left.x_nm - p1.x_nm)) (p2.x_nm - p1.x_nm)⟩,
       p2)) := by
  have h16 : v < 16 := hv ▸ outcode_lt_16 b p1.x_nm p1.y_nm
  have hor : v ||| compute_outcode b p2.x_nm p2.y_nm ≠ 0 :=
    nat16_or_ne_zero v h16 _ (outcode_lt_16 b p2.x_nm p2.y_nm) hvne
  simp only [csStep]
  rw [hv, if_neg hor, if_neg (show ¬(v &&& compute_outcode b p2.x_nm p2.y_nm ≠ 0) from
    fun hne => hne hand), if_pos hvne,
    if_neg (show ¬(v &&& 8 ≠ 0) from fun hne => hne hv8),
    if_neg (show ¬(v &&& 4 ≠ 0) from fun hne => hne hv4),
    if_neg (show ¬(v &&& 2 ≠ 0) from fun hne => hne hv2), if_pos hv1, if_neg hdiv]
  simp

theorem csStep_eval_top2 {b : BoundingBox} {p1 p2 : Position} {v : Nat}
    (h0 : compute_outcode b p1.x_nm p1.y_nm = 0)
    (hv : compute_outcode b p2.x_nm p2.y_nm = v)
    (hvne : v ≠ 0) (hv8 : v &&& 8 ≠ 0)
    (hdiv : p2.y_nm - p1.y_nm ≠ 0) :
    csStep b p1 p2 = some (Sum.inr (p1,
      ⟨p1.x_nm + Int.fdiv ((p2.x_nm - p1.x_nm) * (b.bottom_right.y_nm - p1.y_nm)) (p2.y_nm - p1.y_nm),
        b.bottom_right.y_nm⟩)) := by
  simp only [csStep]
  rw [h0, hv, Nat.zero_or, Nat.zero_and]
  rw [if_neg hvne, if_neg (show ¬(0 : Nat) ≠ 0 from fun h => h rfl),
    if_neg (show ¬(0 : Nat) ≠ 0 from fun h => h rfl), if_pos hv8, if_neg hdiv]
  simp only [if_neg hvne]

theorem csStep_eval_bot2 {b : BoundingBox} {p1 p2 : Position} {v : Nat}
    (h0 : compute_outcode b p1.x_nm p1.y_nm = 0)
    (hv : compute_outcode b p2.x_nm p2.y_nm = v)
    (hvne : v ≠ 0) (hv8 : v &&& 8 = 0) (hv4 : v &&& 4 ≠ 0)
    (hdiv : p2.y_nm - p1.y_nm ≠ 0) :
    csStep b p1 p2 = some (Sum.inr (p1,
      ⟨p1.x_nm + Int.fdiv ((p2.x_nm - p1.x_nm) * (b.top_left.y_nm - p1.y_nm)) (p2.y_nm - p1.y_nm),
        b.top_left.y_nm⟩)) := by
  simp only [csStep]
  rw [h0, hv, Nat.zero_or, Nat.zero_and]
  rw [if_neg hvne, if_neg (show ¬(0 : Nat) ≠ 0 from fun h => h rfl),
    if_neg (show ¬(0 : Nat) ≠ 0 from fun h => h rfl),
    if_neg (show ¬(v &&& 8 ≠ 0) from fun hne => hne hv8), if_pos hv4, if_neg hdiv]
  simp only [if_neg hvne]

theorem csStep_eval_right2 {b : BoundingBox} {p1 p2 : Position} {v : Nat}
    (h0 : compute_outcode b p1.x_nm p1.y_nm = 0)
    (hv : compute_outcode b p2.x_nm p2.y_nm = v)
    (hvne : v ≠ 0) (hv8 : v &&& 8 = 0) (hv4 : v &&& 4 = 0) (hv2 : v &&& 2 ≠ 0)
    (hdiv : p2.x_nm - p1.x_nm ≠ 0) :
    csStep b p1 p2 = some (Sum.inr (p1,
      ⟨b.bottom_right.x_nm,
        p1.y_nm + Int.fdiv ((p2.y_nm - p1.y_nm) * (b.bottom_right.x_nm - p1.x_nm)) (p2.x_nm - p1.x_nm)⟩)) := by
  simp only [csStep]
  rw [h0, hv, Nat.zero_or, Nat.zero_and]
  rw [if_neg hvne, if_neg (show ¬(0 : Nat) ≠ 0 from fun h => h rfl),
    if_neg (show ¬(0 : Nat) ≠ 0 from fun h => h rfl),
    if_neg (show ¬(v &&& 8 ≠ 0) from fun hne => hne hv8),
    if_neg (show ¬(v &&& 4 ≠ 0) from fun hne => hne hv4), if_pos hv2, if_neg hdiv]
  simp only [if_neg hvne]

theorem csStep_eval_left2 {b : BoundingBox} {p1 p2 : Position} {v : Nat}
    (h0 : compute_outcode b p1.x_nm p1.y_nm = 0)
    (hv : compute_outcode b p2.x_nm p2.y_nm = v)
    (hvne : v ≠ 0) (hv8 : v &&& 8 = 0) (hv4 : v &&& 4 = 0) (hv2 : v &&& 2 = 0)
    (hv1 : v &&& 1 ≠ 0)
    (hdiv : p2.x_nm - p1.x_nm ≠ 0) :
    csStep b p1 p2 = some (Sum.inr (p1,
      ⟨b.top_left.x_nm,
        p1.y_nm + Int.fdiv ((p2.y_nm - p1.y_nm) * (b.top_left.x_nm - p1.x_nm)) (p2.x_nm - p1.x_nm)⟩)) := by
  simp only [csStep]
  rw [h0, hv, Nat.zero_or, Nat.zero_and]
  rw [if_neg hvne, if_neg (show ¬(0 : Nat) ≠ 0 from fun h => h rfl),
    if_neg (show ¬(0 : Nat) ≠ 0 from fun h => h rfl),
    if_neg (show ¬(v &&& 8 ≠ 0) from fun hne => hne hv8),
    if_neg (show ¬(v &&& 4 ≠ 0) from fun hne => hne hv4),
    if_neg (show ¬(v &&& 2 ≠ 0) from fun hne => hne hv2), if_pos hv1, if_neg hdiv]
  simp only [if_neg hvne]

theorem csLoop_of_step {b : BoundingBox} {n : Nat} {p1 p2 q1 q2 : Position}
    (h : csStep b p1 p2 = some (Sum.inr (q1, q2))) :
    csLoop b (n + 1) p1 p2 = csLoop b n q1 q2 := by
  rw [csLoop_succ, h]

theorem csLoop_of_true {b : BoundingBox} {n : Nat} {p1 p2 : Position}
    (h : csStep b p1 p2 = some (Sum.inl true)) :
    csLoop b (n + 1) p1 p2 = some true := by
  rw [csLoop_succ, h]

theorem csLoop_of_false {b : BoundingBox} {n : Nat} {p1 p2 : Position}
    (h : csStep b p1 p2 = some (Sum.inl false)) :
    csLoop b (n + 1) p1 p2 = some false := by
  rw [csLoop_succ, h]

theorem outcode_eq_zero_inside {b : BoundingBox} {x y : Int}
    (h : compute_outcode b x y = 0) :
    ¬x < b.top_left.x_nm ∧ ¬x > b.bottom_right.x_nm ∧
    ¬y < b.top_left.y_nm ∧ ¬y > b.bottom_right.y_nm := by
  revert h
  unfold compute_outcode
  split_ifs <;> intro h <;> first | (exact absurd h (by decide)) | omega

/-- Phase-two termination: when `p1` is already inside the box, the loop
finishes within four more iterations (clip `p2` at most twice, then return). -/
theorem csLoop_phase2 {b : BoundingBox} {p1 : Position}
    (hwfx : b.top_left.x_nm ≤ b.bottom_right.x_nm)
    (hwfy : b.top_left.y_nm ≤ b.bottom_right.y_nm)
    (h1 : compute_outcode b p1.x_nm p1.y_nm = 0) :
    ∀ (p2 : Position) (k : Nat), (csLoop b (k + 4) p1 p2).isSome = true := by
  intro p2 k
  obtain ⟨hx1, hx2, hy1, hy2⟩ := outcode_eq_zero_inside h1
  by_cases h2t : p2.y_nm > b.bottom_right.y_nm
  · -- clip p2 against the TOP boundary
    have hdiv : p2.y_nm - p1.y_nm ≠ 0 := by omega
    obtain ⟨v, hv, hvne, hv8⟩ :
        ∃ v, compute_outcode b p2.x_nm p2.y_nm = v ∧ v ≠ 0 ∧ v &&& 8 ≠ 0 := by
      by_cases hxl : p2.x_nm < b.top_left.x_nm
      · exact ⟨9, outcode_val_9 hxl (by omega) h2t, by decide, by decide⟩
      · by_cases hxr : p2.x_nm > b.bottom_right.x_nm
        · exact ⟨10, outcode_val_10 hxl hxr (by omega) h2t, by decide, by decide⟩
        · exact ⟨8, outcode_val_8 hxl hxr (by omega) h2t, by decide, by decide⟩
    obtain ⟨qx, hstep, hq1, hq2⟩ :
        ∃ qx, csStep b p1 p2 = some (Sum.inr (p1, ⟨qx, b.bottom_right.y_nm⟩)) ∧
          min p1.x_nm p2.x_nm ≤ qx ∧ qx ≤ max p1.x_nm p2.x_nm := by
      obtain ⟨hb1, hb2⟩ := @interp_fdiv_mem_pos (p2.x_nm - p1.x_nm)
        (b.bottom_right.y_nm - p1.y_nm) (p2.y_nm - p1.y_nm) (by omega) (by omega)
        (by omega)
      exact ⟨_, csStep_eval_top2 h1 hv hvne hv8 hdiv, by omega, by omega⟩
    rw [show k + 4 = (k + 3) + 1 from rfl, csLoop_of_step hstep]
    by_cases hql : qx < b.top_left.x_nm
    · -- second clip: LEFT
      have hqv : compute_outcode b qx b.bottom_right.y_nm = 1 :=
        outcode_val_1 hql (by omega) (by omega)
      have hdiv2 : qx - p1.x_nm ≠ 0 := by
        omega
      obtain ⟨qy, hstep2, hr1, hr2⟩ :
          ∃ qy, csStep b p1 ⟨qx, b.bottom_right.y_nm⟩ =
              some (Sum.inr (p1, ⟨b.top_left.x_nm, qy⟩)) ∧
            min p1.y_nm b.bottom_right.y_nm ≤ qy ∧
            qy ≤ max p1.y_nm b.bottom_right.y_nm := by
        obtain ⟨hc1, hc2⟩ := @interp_fdiv_mem_neg (b.bottom_right.y_nm - p1.y_nm)
          (b.top_left.x_nm - p1.x_nm) (qx - p1.x_nm) (by omega) (by omega) (by omega)
        have hs := @csStep_eval_left2 b p1 ⟨qx, b.bottom_right.y_nm⟩ 1 h1 hqv
          (by decide) (by decide) (by decide) (by decide) (by decide) hdiv2
        dsimp only at hs
        exact ⟨_, hs, by omega, by omega⟩
      rw [show k + 3 = (k + 2) + 1 from rfl, csLoop_of_step hstep2]
      have hv0 : compute_outcode b b.top_left.x_nm qy = 0 :=
        outcode_val_0 (by omega) (by omega) (by omega) (by omega)
      rw [show k + 2 = (k + 1) + 1 from rfl, csLoop_of_true (csStep_true h1 hv0)]
      rfl
    · by_cases hqr : qx > b.bottom_right.x_nm
      · -- second clip: RIGHT
        have hqv : compute_outcode b qx b.bottom_right.y_nm = 2 :=
          outcode_val_2 hql hqr (by omega) (by omega)
        have hdiv2 : qx - p1.x_nm ≠ 0 := by
          omega
        obtain ⟨qy, hstep2, hr1, hr2⟩ :
            ∃ qy, csStep b p1 ⟨qx, b.bottom_right.y_nm⟩ =
                some (Sum.inr (p1, ⟨b.bottom_right.x_nm, qy⟩)) ∧
              min p1.y_nm b.bottom_right.y_nm ≤ qy ∧
              qy ≤ max p1.y_nm b.bottom_right.y_nm := by
          obtain ⟨hc1, hc2⟩ := @interp_fdiv_mem_pos (b.bottom_right.y_nm - p1.y_nm)
            (b.bottom_right.x_nm - p1.x_nm) (qx - p1.x_nm) (by omega) (by omega)
            (by omega)
          have hs := @csStep_eval_right2 b p1 ⟨qx, b.bottom_right.y_nm⟩ 2 h1 hqv
            (by decide) (by decide) (by decide) (by decide) hdiv2
          dsimp only at hs
          exact ⟨_, hs, by omega, by omega⟩
        rw [show k + 3 = (k + 2) + 1 from rfl, csLoop_of_step hstep2]
        have hv0 : compute_outcode b b.bottom_right.x_nm qy = 0 :=
          outcode_val_0 (by omega) (by omega) (by omega) (by omega)
        rw [show k + 2 = (k + 1) + 1 from rfl, csLoop_of_true (csStep_true h1 hv0)]
        rfl
      · -- clipped point is already inside
        have hv0 : compute_outcode b qx b.bottom_right.y_nm = 0 :=
          outcode_val_0 hql hqr (by omega) (by omega)
        rw [show k + 3 = (k + 2) + 1 from rfl, csLoop_of_true (csStep_true h1 hv0)]
        rfl
  · by_cases h2b : p2.y_nm < b.top_left.y_nm
    · -- clip p2 against the BOTTOM boundary
      have hdiv : p2.y_nm - p1.y_nm ≠ 0 := by omega
      obtain ⟨v, hv, hvne, hv8, hv4⟩ :
          ∃ v, compute_outcode b p2.x_nm p2.y_nm = v ∧ v ≠ 0 ∧ v &&& 8 = 0 ∧
            v &&& 4 ≠ 0 := by
        by_cases hxl : p2.x_nm < b.top_left.x_nm
        · exact ⟨5, outcode_val_5 hxl h2b, by decide, by decide, by decide⟩
        · by_cases hxr : p2.x_nm > b.bottom_right.x_nm
          · exact ⟨6, outcode_val_6 hxl hxr h2b, by decide, by decide, by decide⟩
          · exact ⟨4, outcode_val_4 hxl hxr h2b, by decide, by decide, by decide⟩
      obtain ⟨qx, hstep, hq1, hq2⟩ :
          ∃ qx, csStep b p1 p2 = some (Sum.inr (p1, ⟨qx, b.top_left.y_nm⟩)) ∧
            min p1.x_nm p2.x_nm ≤ qx ∧ qx ≤ max p1.x_nm p2.x_nm := by
        obtain ⟨hb1, hb2⟩ := @interp_fdiv_mem_neg (p2.x_nm - p1.x_nm)
          (b.top_left.y_nm - p1.y_nm) (p2.y_nm - p1.y_nm) (by omega) (by omega)
          (by omega)
        exact ⟨_, csStep_eval_bot2 h1 hv hvne hv8 hv4 hdiv, by omega, by omega⟩
      rw [show k + 4 = (k + 3) + 1 from rfl, csLoop_of_step hstep]
      by_cases hql : qx < b.top_left.x_nm
      · have hqv : compute_outcode b qx b.top_left.y_nm = 1 :=
          outcode_val_1 hql (by omega) (by omega)
        have hdiv2 : qx - p1.x_nm ≠ 0 := by
          omega
        obtain ⟨qy, hstep2, hr1, hr2⟩ :
            ∃ qy, csStep b p1 ⟨qx, b.top_left.y_nm⟩ =
                some (Sum.inr (p1, ⟨b.top_left.x_nm, qy⟩)) ∧
              min p1.y_nm b.top_left.y_nm ≤ qy ∧ qy ≤ max p1.y_nm b.top_left.y_nm := by
          obtain ⟨hc1, hc2⟩ := @interp_fdiv_mem_neg (b.top_left.y_nm - p1.y_nm)
            (b.top_left.x_nm - p1.x_nm) (qx - p1.x_nm) (by omega) (by omega) (by omega)
          have hs := @csStep_eval_left2 b p1 ⟨qx, b.top_left.y_nm⟩ 1 h1 hqv
            (by decide) (by decide) (by decide) (by decide) (by decide) hdiv2
          dsimp only at hs
          exact ⟨_, hs, by omega, by omega⟩
        rw [show k + 3 = (k + 2) + 1 from rfl, csLoop_of_step hstep2]
        have hv0 : compute_outcode b b.top_left.x_nm qy = 0 :=
          outcode_val_0 (by omega) (by omega) (by omega) (by omega)
        rw [show k + 2 = (k + 1) + 1 from rfl, csLoop_of_true (csStep_true h1 hv0)]
        rfl
      · by_cases hqr : qx > b.bottom_right.x_nm
        · have hqv : compute_outcode b qx b.top_left.y_nm = 2 :=
            outcode_val_2 hql hqr (by omega) (by omega)
          have hdiv2 : qx - p1.x_nm ≠ 0 := by
            omega
          obtain ⟨qy, hstep2, hr1, hr2⟩ :
              ∃ qy, csStep b p1 ⟨qx, b.top_left.y_nm⟩ =
                  some (Sum.inr (p1, ⟨b.bottom_right.x_nm, qy⟩)) ∧
                min p1.y_nm b.top_left.y_nm ≤ qy ∧
                qy ≤ max p1.y_nm b.top_left.y_nm := by
            obtain ⟨hc1, hc2⟩ := @interp_fdiv_mem_pos (b.top_left.y_nm - p1.y_nm)
              (b.bottom_right.x_nm - p1.x_nm) (qx - p1.x_nm) (by omega) (by omega)
              (by omega)
            have hs := @csStep_eval_right2 b p1 ⟨qx, b.top_left.y_nm⟩ 2 h1 hqv
              (by decide) (by decide) (by decide) (by decide) hdiv2
            dsimp only at hs
            exact ⟨_, hs, by omega, by omega⟩
          rw [show k + 3 = (k + 2) + 1 from rfl, csLoop_of_step hstep2]
          have hv0 : compute_outcode b b.bottom_right.x_nm qy = 0 :=
            outcode_val_0 (by omega) (by omega) (by omega) (by omega)
          rw [show k + 2 = (k + 1) + 1 from rfl, csLoop_of_true (csStep_true h1 hv0)]
          rfl
        · have hv0 : compute_outcode b qx b.top_left.y_nm = 0 :=
            outcode_val_0 hql hqr (by omega) (by omega)
          rw [show k + 3 = (k + 2) + 1 from rfl, csLoop_of_true (csStep_true h1 hv0)]
          rfl
    · by_cases h2r : p2.x_nm > b.bottom_right.x_nm
      · -- clip p2 against the RIGHT boundary (p2's y already in band)
        have hqv : compute_outcode b p2.x_nm p2.y_nm = 2 :=
          outcode_val_2 (by omega) h2r h2b h2t
        have hdiv : p2.x_nm - p1.x_nm ≠ 0 := by omega
        obtain ⟨qy, hstep, hr1, hr2⟩ :
            ∃ qy, csStep b p1 p2 = some (Sum.inr (p1, ⟨b.bottom_right.x_nm, qy⟩)) ∧
              min p1.y_nm p2.y_nm ≤ qy ∧ qy ≤ max p1.y_nm p2.y_nm := by
          obtain ⟨hc1, hc2⟩ := @interp_fdiv_mem_pos (p2.y_nm - p1.y_nm)
            (b.bottom_right.x_nm - p1.x_nm) (p2.x_nm - p1.x_nm) (by omega) (by omega)
            (by omega)
          exact ⟨_, csStep_eval_right2 h1 hqv (by decide) (by decide) (by decide)
            (by decide) hdiv, by omega, by omega⟩
        rw [show k + 4 = (k + 3) + 1 from rfl, csLoop_of_step hstep]
        have hv0 : compute_outcode b b.bottom_right.x_nm qy = 0 :=
          outcode_val_0 (by omega) (by omega) (by omega) (by omega)
        rw [show k + 3 = (k + 2) + 1 from rfl, csLoop_of_true (csStep_true h1 hv0)]
        rfl
      · by_cases h2l : p2.x_nm < b.top_left.x_nm
        · -- clip p2 against the LEFT boundary
          have hqv : compute_outcode b p2.x_nm p2.y_nm = 1 :=
            outcode_val_1 h2l h2b h2t
          have hdiv : p2.x_nm - p1.x_nm ≠ 0 := by omega
          obtain ⟨qy, hstep, hr1, hr2⟩ :
              ∃ qy, csStep b p1 p2 = some (Sum.inr (p1, ⟨b.top_left.x_nm, qy⟩)) ∧
                min p1.y_nm p2.y_nm ≤ qy ∧ qy ≤ max p1.y_nm p2.y_nm := by
            obtain ⟨hc1, hc2⟩ := @interp_fdiv_mem_neg (p2.y_nm - p1.y_nm)
              (b.top_left.x_nm - p1.x_nm) (p2.x_nm - p1.x_nm) (by omega) (by omega)
              (by omega)
            exact ⟨_, csStep_eval_left2 h1 hqv (by decide) (by decide) (by decide)
              (by decide) (by decide) hdiv, by omega, by omega⟩
          rw [show k + 4 = (k + 3) + 1 from rfl, csLoop_of_step hstep]
          have hv0 : compute_outcode b b.top_left.x_nm qy = 0 :=
            outcode_val_0 (by omega) (by omega) (by omega) (by omega)
          rw [show k + 3 = (k + 2) + 1 from rfl, csLoop_of_true (csStep_true h1 hv0)]
          rfl
        · -- p2 inside as well: immediate return True
          have hv0 : compute_outcode b p2.x_nm p2.y_nm = 0 :=
            outcode_val_0 h2l h2r h2b h2t
          rw [show k + 4 = (k + 3) + 1 from rfl, csLoop_of_true (csStep_true h1 hv0)]
          rfl

/-- Main termination lemma: for a well-formed box the Cohen-Sutherland loop
always returns within 8 iterations and never divides by zero. -/
theorem csLoop_terminates {b : BoundingBox}
    (hwfx : b.top_left.x_nm ≤ b.bottom_right.x_nm)
    (hwfy : b.top_left.y_nm ≤ b.bottom_right.y_nm)
    (p1 p2 : Position) : (csLoop b 8 p1 p2).isSome = true := by
  by_cases h1in : compute_outcode b p1.x_nm p1.y_nm = 0
  · exact csLoop_phase2 hwfx hwfy h1in p2 4
  by_cases h1t : p1.y_nm > b.bottom_right.y_nm
  · -- p1 is above the TOP boundary
    by_cases h2t : p2.y_nm > b.bottom_right.y_nm
    · have hand : compute_outcode b p1.x_nm p1.y_nm &&&
          compute_outcode b p2.x_nm p2.y_nm ≠ 0 :=
        (outcode_and_ne_zero_iff p1.x_nm p1.y_nm p2.x_nm p2.y_nm hwfx hwfy).mpr
          (Or.inr (Or.inr (Or.inr ⟨h1t, h2t⟩)))
      rw [show (8 : Nat) = 7 + 1 from rfl, csLoop_of_false (csStep_false hand)]
      rfl
    by_cases hshL : p1.x_nm < b.top_left.x_nm ∧ p2.x_nm < b.top_left.x_nm
    · have hand : compute_outcode b p1.x_nm p1.y_nm &&&
          compute_outcode b p2.x_nm p2.y_nm ≠ 0 :=
        (outcode_and_ne_zero_iff p1.x_nm p1.y_nm p2.x_nm p2.y_nm hwfx hwfy).mpr
          (Or.inl hshL)
      rw [show (8 : Nat) = 7 + 1 from rfl, csLoop_of_false (csStep_false hand)]
      rfl
    by_cases hshR : p1.x_nm > b.bottom_right.x_nm ∧ p2.x_nm > b.bottom_right.x_nm
    · have hand : compute_outcode b p1.x_nm p1.y_nm &&&
          compute_outcode b p2.x_nm p2.y_nm ≠ 0 :=
        (outcode_and_ne_zero_iff p1.x_nm p1.y_nm p2.x_nm p2.y_nm hwfx hwfy).mpr
          (Or.inr (Or.inl hshR))
      rw [show (8 : Nat) = 7 + 1 from rfl, csLoop_of_false (csStep_false hand)]
      rfl
    -- clip p1 against the TOP boundary
    have hand0 : compute_outcode b p1.x_nm p1.y_nm &&&
        compute_outcode b p2.x_nm p2.y_nm = 0 := by
      by_contra hne
      have hne2 := (outcode_and_ne_zero_iff p1.x_nm p1.y_nm p2.x_nm p2.y_nm hwfx hwfy).mp hne
      omega
    have hdiv : p2.y_nm - p1.y_nm ≠ 0 := by omega
    obtain ⟨v, hv, hvne, hv8⟩ :
        ∃ v, compute_outcode b p1.x_nm p1.y_nm = v ∧ v ≠ 0 ∧ v &&& 8 ≠ 0 := by
      by_cases hxl : p1.x_nm < b.top_left.x_nm
      · exact ⟨9, outcode_val_9 hxl (by omega) h1t, by decide, by decide⟩
      · by_cases hxr : p1.x_nm > b.bottom_right.x_nm
        · exact ⟨10, outcode_val_10 hxl hxr (by omega) h1t, by decide, by decide⟩
        · exact ⟨8, outcode_val_8 hxl hxr (by omega) h1t, by decide, by decide⟩
    obtain ⟨qx, hstep, hq1, hq2⟩ :
        ∃ qx, csStep b p1 p2 = some (Sum.inr (⟨qx, b.bottom_right.y_nm⟩, p2)) ∧
          min p1.x_nm p2.x_nm ≤ qx ∧ qx ≤ max p1.x_nm p2.x_nm := by
      obtain ⟨hb1, hb2⟩ := @interp_fdiv_mem_neg (p2.x_nm - p1.x_nm)
        (b.bottom_right.y_nm - p1.y_nm) (p2.y_nm - p1.y_nm) (by omega) (by omega)
        (by omega)
      exact ⟨_, csStep_eval_top1 hv hvne hv8 (hv ▸ hand0) hdiv, by omega, by omega⟩
    rw [show (8 : Nat) = 7 + 1 from rfl, csLoop_of_step hstep]
    by_cases hql : qx < b.top_left.x_nm
    · by_cases hp2l : p2.x_nm < b.top_left.x_nm
      · have hand2 : compute_outcode b qx b.bottom_right.y_nm &&&
            compute_outcode b p2.x_nm p2.y_nm ≠ 0 :=
          (outcode_and_ne_zero_iff qx b.bottom_right.y_nm p2.x_nm p2.y_nm hwfx hwfy).mpr
            (Or.inl ⟨hql, hp2l⟩)
        rw [show (7 : Nat) = 6 + 1 from rfl,
          csLoop_of_false (@csStep_false b ⟨qx, b.bottom_right.y_nm⟩ p2 hand2)]
        rfl
      · -- second clip: LEFT on the new p1
        have hv1 : compute_outcode b qx b.bottom_right.y_nm = 1 :=
          outcode_val_1 hql (by omega) (by omega)
        have hand1 : compute_outcode b qx b.bottom_right.y_nm &&&
            compute_outcode b p2.x_nm p2.y_nm = 0 := by
          by_contra hne
          have hne2 := (outcode_and_ne_zero_iff qx b.bottom_right.y_nm p2.x_nm p2.y_nm hwfx hwfy).mp hne
          omega
        have hdiv2 : p2.x_nm - qx ≠ 0 := by omega
        obtain ⟨qy, hstep2, hr1, hr2⟩ :
            ∃ qy, csStep b ⟨qx, b.bottom_right.y_nm⟩ p2 =
                some (Sum.inr (⟨b.top_left.x_nm, qy⟩, p2)) ∧
              min b.bottom_right.y_nm p2.y_nm ≤ qy ∧
              qy ≤ max b.bottom_right.y_nm p2.y_nm := by
          obtain ⟨hc1, hc2⟩ := @interp_fdiv_mem_pos (p2.y_nm - b.bottom_right.y_nm)
            (b.top_left.x_nm - qx) (p2.x_nm - qx) (by omega) (by omega) (by omega)
          have hs := @csStep_eval_left1 b ⟨qx, b.bottom_right.y_nm⟩ p2 1 hv1
            (by decide) (by decide) (by decide) (by decide) (by decide)
            (hv1 ▸ hand1) hdiv2
          dsimp only at hs
          exact ⟨_, hs, by omega, by omega⟩
        rw [show (7 : Nat) = 6 + 1 from rfl, csLoop_of_step hstep2]
        by_cases hqy : qy < b.top_left.y_nm
        · have hp2b : p2.y_nm < b.top_left.y_nm := by omega
          have hand3 : compute_outcode b b.top_left.x_nm qy &&&
              compute_outcode b p2.x_nm p2.y_nm ≠ 0 :=
            (outcode_and_ne_zero_iff b.top_left.x_nm qy p2.x_nm p2.y_nm hwfx hwfy).mpr
              (Or.inr (Or.inr (Or.inl ⟨hqy, hp2b⟩)))
          rw [show (6 : Nat) = 5 + 1 from rfl,
            csLoop_of_false (@csStep_false b ⟨b.top_left.x_nm, qy⟩ p2 hand3)]
          rfl
        · have hv0 : compute_outcode b b.top_left.x_nm qy = 0 :=
            outcode_val_0 (by omega) (by omega) (by omega) (by omega)
          exact csLoop_phase2 hwfx hwfy hv0 p2 2
    · by_cases hqr : qx > b.bottom_right.x_nm
      · by_cases hp2r : p2.x_nm > b.bottom_right.x_nm
        · have hand2 : compute_outcode b qx b.bottom_right.y_nm &&&
              compute_outcode b p2.x_nm p2.y_nm ≠ 0 :=
            (outcode_and_ne_zero_iff qx b.bottom_right.y_nm p2.x_nm p2.y_nm hwfx hwfy).mpr
              (Or.inr (Or.inl ⟨hqr, hp2r⟩))
          rw [show (7 : Nat) = 6 + 1 from rfl,
            csLoop_of_false (@csStep_false b ⟨qx, b.bottom_right.y_nm⟩ p2 hand2)]
          rfl
        · -- second clip: RIGHT on the new p1
          have hv2 : compute_outcode b qx b.bottom_right.y_nm = 2 :=
            outcode_val_2 hql hqr (by omega) (by omega)
          have hand1 : compute_outcode b qx b.bottom_right.y_nm &&&
              compute_outcode b p2.x_nm p2.y_nm = 0 := by
            by_contra hne
            have hne2 := (outcode_and_ne_zero_iff qx b.bottom_right.y_nm p2.x_nm p2.y_nm hwfx hwfy).mp hne
            omega
          have hdiv2 : p2.x_nm - qx ≠ 0 := by omega
          obtain ⟨qy, hstep2, hr1, hr2⟩ :
              ∃ qy, csStep b ⟨qx, b.bottom_right.y_nm⟩ p2 =
                  some (Sum.inr (⟨b.bottom_right.x_nm, qy⟩, p2)) ∧
                min b.bottom_right.y_nm p2.y_nm ≤ qy ∧
                qy ≤ max b.bottom_right.y_nm p2.y_nm := by
            obtain ⟨hc1, hc2⟩ := @interp_fdiv_mem_neg (p2.y_nm - b.bottom_right.y_nm)
              (b.bottom_right.x_nm - qx) (p2.x_nm - qx) (by omega) (by omega) (by omega)
            have hs := @csStep_eval_right1 b ⟨qx, b.bottom_right.y_nm⟩ p2 2 hv2
              (by decide) (by decide) (by decide) (by decide)
              (hv2 ▸ hand1) hdiv2
            dsimp only at hs
            exact ⟨_, hs, by omega, by omega⟩
          rw [show (7 : Nat) = 6 + 1 from rfl, csLoop_of_step hstep2]
          by_cases hqy : qy < b.top_left.y_nm
          · have hp2b : p2.y_nm < b.top_left.y_nm := by omega
            have hand3 : compute_outcode b b.bottom_right.x_nm qy &&&
                compute_outcode b p2.x_nm p2.y_nm ≠ 0 :=
              (outcode_and_ne_zero_iff b.bottom_right.x_nm qy p2.x_nm p2.y_nm hwfx hwfy).mpr
                (Or.inr (Or.inr (Or.inl ⟨hqy, hp2b⟩)))
            rw [show (6 : Nat) = 5 + 1 from rfl,
              csLoop_of_false (@csStep_false b ⟨b.bottom_right.x_nm, qy⟩ p2 hand3)]
            rfl
          · have hv0 : compute_outcode b b.bottom_right.x_nm qy = 0 :=
              outcode_val_0 (by omega) (by omega) (by omega) (by omega)
            exact csLoop_phase2 hwfx hwfy hv0 p2 2
      · -- the clipped point is inside
        have hv0 : compute_outcode b qx b.bottom_right.y_nm = 0 :=
          outcode_val_0 hql hqr (by omega) (by omega)
        exact csLoop_phase2 hwfx hwfy hv0 p2 3
  · by_cases h1b : p1.y_nm < b.top_left.y_nm
    · -- p1 is below the BOTTOM boundary
      by_cases h2b : p2.y_nm < b.top_left.y_nm
      · have hand : compute_outcode b p1.x_nm p1.y_nm &&&
            compute_outcode b p2.x_nm p2.y_nm ≠ 0 :=
          (outcode_and_ne_zero_iff p1.x_nm p1.y_nm p2.x_nm p2.y_nm hwfx hwfy).mpr
            (Or.inr (Or.inr (Or.inl ⟨h1b, h2b⟩)))
        rw [show (8 : Nat) = 7 + 1 from rfl, csLoop_of_false (csStep_false hand)]
        rfl
      by_cases hshL : p1.x_nm < b.top_left.x_nm ∧ p2.x_nm < b.top_left.x_nm
      · have hand : compute_outcode b p1.x_nm p1.y_nm &&&
            compute_outcode b p2.x_nm p2.y_nm ≠ 0 :=
          (outcode_and_ne_zero_iff p1.x_nm p1.y_nm p2.x_nm p2.y_nm hwfx hwfy).mpr
            (Or.inl hshL)
        rw [show (8 : Nat) = 7 + 1 from rfl, csLoop_of_false (csStep_false hand)]
        rfl
      by_cases hshR : p1.x_nm > b.bottom_right.x_nm ∧ p2.x_nm > b.bottom_right.x_nm
      · have hand : compute_outcode b p1.x_nm p1.y_nm &&&
            compute_outcode b p2.x_nm p2.y_nm ≠ 0 :=
          (outcode_and_ne_zero_iff p1.x_nm p1.y_nm p2.x_nm p2.y_nm hwfx hwfy).mpr
            (Or.inr (Or.inl hshR))
        rw [show (8 : Nat) = 7 + 1 from rfl, csLoop_of_false (csStep_false hand)]
        rfl
      -- clip p1 against the BOTTOM boundary
      have hand0 : compute_outcode b p1.x_nm p1.y_nm &&&
          compute_outcode b p2.x_nm p2.y_nm = 0 := by
        by_contra hne
        have hne2 := (outcode_and_ne_zero_iff p1.x_nm p1.y_nm p2.x_nm p2.y_nm hwfx hwfy).mp hne
        omega
      have hdiv : p2.y_nm - p1.y_nm ≠ 0 := by omega
      obtain ⟨v, hv, hvne, hv8, hv4⟩ :
          ∃ v, compute_outcode b p1.x_nm p1.y_nm = v ∧ v ≠ 0 ∧ v &&& 8 = 0 ∧
            v &&& 4 ≠ 0 := by
        by_cases hxl : p1.x_nm < b.top_left.x_nm
        · exact ⟨5, outcode_val_5 hxl h1b, by decide, by decide, by decide⟩
        · by_cases hxr : p1.x_nm > b.bottom_right.x_nm
          · exact ⟨6, outcode_val_6 hxl hxr h1b, by decide, by decide, by decide⟩
          · exact ⟨4, outcode_val_4 hxl hxr h1b, by decide, by decide, by decide⟩
      obtain ⟨qx, hstep, hq1, hq2⟩ :
          ∃ qx, csStep b p1 p2 = some (Sum.inr (⟨qx, b.top_left.y_nm⟩, p2)) ∧
            min p1.x_nm p2.x_nm ≤ qx ∧ qx ≤ max p1.x_nm p2.x_nm := by
        obtain ⟨hb1, hb2⟩ := @interp_fdiv_mem_pos (p2.x_nm - p1.x_nm)
          (b.top_left.y_nm - p1.y_nm) (p2.y_nm - p1.y_nm) (by omega) (by omega)
          (by omega)
        exact ⟨_, csStep_eval_bot1 hv hvne hv8 hv4 (hv ▸ hand0) hdiv, by omega, by omega⟩
      rw [show (8 : Nat) = 7 + 1 from rfl, csLoop_of_step hstep]
      by_cases hql : qx < b.top_left.x_nm
      · by_cases hp2l : p2.x_nm < b.top_left.x_nm
        · have hand2 : compute_outcode b qx b.top_left.y_nm &&&
              compute_outcode b p2.x_nm p2.y_nm ≠ 0 :=
            (outcode_and_ne_zero_iff qx b.top_left.y_nm p2.x_nm p2.y_nm hwfx hwfy).mpr
              (Or.inl ⟨hql, hp2l⟩)
          rw [show (7 : Nat) = 6 + 1 from rfl,
            csLoop_of_false (@csStep_false b ⟨qx, b.top_left.y_nm⟩ p2 hand2)]
          rfl
        · have hv1 : compute_outcode b qx b.top_left.y_nm = 1 :=
            outcode_val_1 hql (by omega) (by omega)
          have hand1 : compute_outcode b qx b.top_left.y_nm &&&
              compute_outcode b p2.x_nm p2.y_nm = 0 := by
            by_contra hne
            have hne2 := (outcode_and_ne_zero_iff qx b.top_left.y_nm p2.x_nm p2.y_nm hwfx hwfy).mp hne
            omega
          have hdiv2 : p2.x_nm - qx ≠ 0 := by omega
          obtain ⟨qy, hstep2, hr1, hr2⟩ :
              ∃ qy, csStep b ⟨qx, b.top_left.y_nm⟩ p2 =
                  some (Sum.inr (⟨b.top_left.x_nm, qy⟩, p2)) ∧
                min b.top_left.y_nm p2.y_nm ≤ qy ∧ qy ≤ max b.top_left.y_nm p2.y_nm := by
            obtain ⟨hc1, hc2⟩ := @interp_fdiv_mem_pos (p2.y_nm - b.top_left.y_nm)
              (b.top_left.x_nm - qx) (p2.x_nm - qx) (by omega) (by omega) (by omega)
            have hs := @csStep_eval_left1 b ⟨qx, b.top_left.y_nm⟩ p2 1 hv1
              (by decide) (by decide) (by decide) (by decide) (by decide)
              (hv1 ▸ hand1) hdiv2
            dsimp only at hs
            exact ⟨_, hs, by omega, by omega⟩
          rw [show (7 : Nat) = 6 + 1 from rfl, csLoop_of_step hstep2]
          by_cases hqy : qy > b.bottom_right.y_nm
          · have hp2t : p2.y_nm > b.bottom_right.y_nm := by omega
            have hand3 : compute_outcode b b.top_left.x_nm qy &&&
                compute_outcode b p2.x_nm p2.y_nm ≠ 0 :=
              (outcode_and_ne_zero_iff b.top_left.x_nm qy p2.x_nm p2.y_nm hwfx hwfy).mpr
                (Or.inr (Or.inr (Or.inr ⟨hqy, hp2t⟩)))
            rw [show (6 : Nat) = 5 + 1 from rfl,
              csLoop_of_false (@csStep_false b ⟨b.top_left.x_nm, qy⟩ p2 hand3)]
            rfl
          · have hv0 : compute_outcode b b.top_left.x_nm qy = 0 :=
              outcode_val_0 (by omega) (by omega) (by omega) (by omega)
            exact csLoop_phase2 hwfx hwfy hv0 p2 2
      · by_cases hqr : qx > b.bottom_right.x_nm
        · by_cases hp2r : p2.x_nm > b.bottom_right.x_nm
          · have hand2 : compute_outcode b qx b.top_left.y_nm &&&
                compute_outcode b p2.x_nm p2.y_nm ≠ 0 :=
              (outcode_and_ne_zero_iff qx b.top_left.y_nm p2.x_nm p2.y_nm hwfx hwfy).mpr
                (Or.inr (Or.inl ⟨hqr, hp2r⟩))
            rw [show (7 : Nat) = 6 + 1 from rfl,
              csLoop_of_false (@csStep_false b ⟨qx, b.top_left.y_nm⟩ p2 hand2)]
            rfl
          · have hv2 : compute_outcode b qx b.top_left.y_nm = 2 :=
              outcode_val_2 hql hqr (by omega) (by omega)
            have hand1 : compute_outcode b qx b.top_left.y_nm &&&
                compute_outcode b p2.x_nm p2.y_nm = 0 := by
              by_contra hne
              have hne2 := (outcode_and_ne_zero_iff qx b.top_left.y_nm p2.x_nm p2.y_nm hwfx hwfy).mp hne
              omega
            have hdiv2 : p2.x_nm - qx ≠ 0 := by omega
            obtain ⟨qy, hstep2, hr1, hr2⟩ :
                ∃ qy, csStep b ⟨qx, b.top_left.y_nm⟩ p2 =
                    some (Sum.inr (⟨b.bottom_right.x_nm, qy⟩, p2)) ∧
                  min b.top_left.y_nm p2.y_nm ≤ qy ∧
                  qy ≤ max b.top_left.y_nm p2.y_nm := by
              obtain ⟨hc1, hc2⟩ := @interp_fdiv_mem_neg (p2.y_nm - b.top_left.y_nm)
                (b.bottom_right.x_nm - qx) (p2.x_nm - qx) (by omega) (by omega)
                (by omega)
              have hs := @csStep_eval_right1 b ⟨qx, b.top_left.y_nm⟩ p2 2 hv2
                (by decide) (by decide) (by decide) (by decide)
                (hv2 ▸ hand1) hdiv2
              dsimp only at hs
              exact ⟨_, hs, by omega, by omega⟩
            rw [show (7 : Nat) = 6 + 1 from rfl, csLoop_of_step hstep2]
            by_cases hqy : qy > b.bottom_right.y_nm
            · have hp2t : p2.y_nm > b.bottom_right.y_nm := by omega
              have hand3 : compute_outcode b b.bottom_right.x_nm qy &&&
                  compute_outcode b p2.x_nm p2.y_nm ≠ 0 :=
                (outcode_and_ne_zero_iff b.bottom_right.x_nm qy p2.x_nm p2.y_nm hwfx hwfy).mpr
                  (Or.inr (Or.inr (Or.inr ⟨hqy, hp2t⟩)))
              rw [show (6 : Nat) = 5 + 1 from rfl,
                csLoop_of_false (@csStep_false b ⟨b.bottom_right.x_nm, qy⟩ p2 hand3)]
              rfl
            · have hv0 : compute_outcode b b.bottom_right.x_nm qy = 0 :=
                outcode_val_0 (by omega) (by omega) (by omega) (by omega)
              exact csLoop_phase2 hwfx hwfy hv0 p2 2
        · have hv0 : compute_outcode b qx b.top_left.y_nm = 0 :=
            outcode_val_0 hql hqr (by omega) (by omega)
          exact csLoop_phase2 hwfx hwfy hv0 p2 3
    · -- p1's y is in band; p1 must stick out on the x axis
      by_cases h1r : p1.x_nm > b.bottom_right.x_nm
      · by_cases h2r : p2.x_nm > b.bottom_right.x_nm
        · have hand : compute_outcode b p1.x_nm p1.y_nm &&&
              compute_outcode b p2.x_nm p2.y_nm ≠ 0 :=
            (outcode_and_ne_zero_iff p1.x_nm p1.y_nm p2.x_nm p2.y_nm hwfx hwfy).mpr
              (Or.inr (Or.inl ⟨h1r, h2r⟩))
          rw [show (8 : Nat) = 7 + 1 from rfl, csLoop_of_false (csStep_false hand)]
          rfl
        · -- clip p1 against the RIGHT boundary
          have hv2 : compute_outcode b p1.x_nm p1.y_nm = 2 :=
            outcode_val_2 (by omega) h1r (by omega) (by omega)
          have hand0 : compute_outcode b p1.x_nm p1.y_nm &&&
              compute_outcode b p2.x_nm p2.y_nm = 0 := by
            by_contra hne
            have hne2 := (outcode_and_ne_zero_iff p1.x_nm p1.y_nm p2.x_nm p2.y_nm hwfx hwfy).mp hne
            omega
          have hdiv : p2.x_nm - p1.x_nm ≠ 0 := by omega
          obtain ⟨qy, hstep, hr1, hr2⟩ :
              ∃ qy, csStep b p1 p2 = some (Sum.inr (⟨b.bottom_right.x_nm, qy⟩, p2)) ∧
                min p1.y_nm p2.y_nm ≤ qy ∧ qy ≤ max p1.y_nm p2.y_nm := by
            obtain ⟨hc1, hc2⟩ := @interp_fdiv_mem_neg (p2.y_nm - p1.y_nm)
              (b.bottom_right.x_nm - p1.x_nm) (p2.x_nm - p1.x_nm) (by omega) (by omega)
              (by omega)
            exact ⟨_, csStep_eval_right1 hv2 (by decide) (by decide) (by decide)
              (by decide) (hv2 ▸ hand0) hdiv, by omega, by omega⟩
          rw [show (8 : Nat) = 7 + 1 from rfl, csLoop_of_step hstep]
          by_cases hqt : qy > b.bottom_right.y_nm
          · have hp2t : p2.y_nm > b.bottom_right.y_nm := by omega
            have hand3 : compute_outcode b b.bottom_right.x_nm qy &&&
                compute_outcode b p2.x_nm p2.y_nm ≠ 0 :=
              (outcode_and_ne_zero_iff b.bottom_right.x_nm qy p2.x_nm p2.y_nm hwfx hwfy).mpr
                (Or.inr (Or.inr (Or.inr ⟨hqt, hp2t⟩)))
            rw [show (7 : Nat) = 6 + 1 from rfl,
              csLoop_of_false (@csStep_false b ⟨b.bottom_right.x_nm, qy⟩ p2 hand3)]
            rfl
          · by_cases hqb : qy < b.top_left.y_nm
            · have hp2b : p2.y_nm < b.top_left.y_nm := by omega
              have hand3 : compute_outcode b b.bottom_right.x_nm qy &&&
                  compute_outcode b p2.x_nm p2.y_nm ≠ 0 :=
                (outcode_and_ne_zero_iff b.bottom_right.x_nm qy p2.x_nm p2.y_nm hwfx hwfy).mpr
                  (Or.inr (Or.inr (Or.inl ⟨hqb, hp2b⟩)))
              rw [show (7 : Nat) = 6 + 1 from rfl,
                csLoop_of_false (@csStep_false b ⟨b.bottom_right.x_nm, qy⟩ p2 hand3)]
              rfl
            · have hv0 : compute_outcode b b.bottom_right.x_nm qy = 0 :=
                outcode_val_0 (by omega) (by omega) (by omega) (by omega)
              exact csLoop_phase2 hwfx hwfy hv0 p2 3
      · -- p1 must be LEFT of the box
        have h1l : p1.x_nm < b.top_left.x_nm := by
          by_contra h1l
          exact h1in (outcode_val_0 h1l h1r h1b h1t)
        by_cases h2l : p2.x_nm < b.top_left.x_nm
        · have hand : compute_outcode b p1.x_nm p1.y_nm &&&
              compute_outcode b p2.x_nm p2.y_nm ≠ 0 :=
            (outcode_and_ne_zero_iff p1.x_nm p1.y_nm p2.x_nm p2.y_nm hwfx hwfy).mpr
              (Or.inl ⟨h1l, h2l⟩)
          rw [show (8 : Nat) = 7 + 1 from rfl, csLoop_of_false (csStep_false hand)]
          rfl
        · -- clip p1 against the LEFT boundary
          have hv1 : compute_outcode b p1.x_nm p1.y_nm = 1 :=
            outcode_val_1 h1l (by omega) (by omega)
          have hand0 : compute_outcode b p1.x_nm p1.y_nm &&&
              compute_outcode b p2.x_nm p2.y_nm = 0 := by
            by_contra hne
            have hne2 := (outcode_and_ne_zero_iff p1.x_nm p1.y_nm p2.x_nm p2.y_nm hwfx hwfy).mp hne
            omega
          have hdiv : p2.x_nm - p1.x_nm ≠ 0 := by omega
          obtain ⟨qy, hstep, hr1, hr2⟩ :
              ∃ qy, csStep b p1 p2 = some (Sum.inr (⟨b.top_left.x_nm, qy⟩, p2)) ∧
                min p1.y_nm p2.y_nm ≤ qy ∧ qy ≤ max p1.y_nm p2.y_nm := by
            obtain ⟨hc1, hc2⟩ := @interp_fdiv_mem_pos (p2.y_nm - p1.y_nm)
              (b.top_left.x_nm - p1.x_nm) (p2.x_nm - p1.x_nm) (by omega) (by omega)
              (by omega)
            exact ⟨_, csStep_eval_left1 hv1 (by decide) (by decide) (by decide)
              (by decide) (by decide) (hv1 ▸ hand0) hdiv, by omega, by omega⟩
          rw [show (8 : Nat) = 7 + 1 from rfl, csLoop_of_step hstep]
          by_cases hqt : qy > b.bottom_right.y_nm
          · have hp2t : p2.y_nm > b.bottom_right.y_nm := by omega
            have hand3 : compute_outcode b b.top_left.x_nm qy &&&
                compute_outcode b p2.x_nm p2.y_nm ≠ 0 :=
              (outcode_and_ne_zero_iff b.top_left.x_nm qy p2.x_nm p2.y_nm hwfx hwfy).mpr
                (Or.inr (Or.inr (Or.inr ⟨hqt, hp2t⟩)))
            rw [show (7 : Nat) = 6 + 1 from rfl,
              csLoop_of_false (@csStep_false b ⟨b.top_left.x_nm, qy⟩ p2 hand3)]
            rfl
          · by_cases hqb : qy < b.top_left.y_nm
            · have hp2b : p2.y_nm < b.top_left.y_nm := by omega
              have hand3 : compute_outcode b b.top_left.x_nm qy &&&
                  compute_outcode b p2.x_nm p2.y_nm ≠ 0 :=
                (outcode_and_ne_zero_iff b.top_left.x_nm qy p2.x_nm p2.y_nm hwfx hwfy).mpr
                  (Or.inr (Or.inr (Or.inl ⟨hqb, hp2b⟩)))
              rw [show (7 : Nat) = 6 + 1 from rfl,
                csLoop_of_false (@csStep_false b ⟨b.top_left.x_nm, qy⟩ p2 hand3)]
              rfl
            · have hv0 : compute_outcode b b.top_left.x_nm qy = 0 :=
                outcode_val_0 (by omega) (by omega) (by omega) (by omega)
              exact csLoop_phase2 hwfx hwfy hv0 p2 3

/-! ### Characterisation of `check_path_collision` -/

/-- The list of `(symbol_id, center)` hits that one segment produces against
the stored boxes: one entry per (segment, box) pair whose expanded box
intersects the segment. -/
def pair_hits (clearance_nm : Int) (exclude_pins : List String)
    (seg_start seg_end : Position) (boxes : List (String × BoundingBox)) :
    List (String × Position) :=
  boxes.filterMap (fun entry =>
    if entry.1 ∈ exclude_pins then none
    else if (entry.2.expand clearance_nm).intersects_line seg_start seg_end = some true then
      some (entry.1, entry.2.center)
    else none)

/-- All hits of a path, in iteration order (segments outer, boxes inner). -/
def path_hits (clearance_nm : Int) (exclude_pins : List String)
    (boxes : List (String × BoundingBox)) (segs : List (Position × Position)) :
    List (String × Position) :=
  (segs.map (fun seg => pair_hits clearance_nm exclude_pins seg.1 seg.2 boxes)).flatten

theorem collide_boxes_char {clearance_nm : Int} {exclude_pins : List String}
    {seg_start seg_end : Position} :
    ∀ (L : List (String × BoundingBox)) (acc out : List String × List Position),
      collide_boxes clearance_nm exclude_pins seg_start seg_end L acc = some out →
      out = (acc.1 ++ (pair_hits clearance_nm exclude_pins seg_start seg_end L).map Prod.fst,
             acc.2 ++ (pair_hits clearance_nm exclude_pins seg_start seg_end L).map Prod.snd) := by
  intro L
  induction L with
  | nil =>
    intro acc out h
    simp only [collide_boxes, Option.some.injEq] at h
    simp [pair_hits, ← h]
  | cons hd tl ih =>
    obtain ⟨sid, bbox⟩ := hd
    intro acc out h
    by_cases hex : sid ∈ exclude_pins
    · rw [show collide_boxes clearance_nm exclude_pins seg_start seg_end
          ((sid, bbox) :: tl) acc =
          collide_boxes clearance_nm exclude_pins seg_start seg_end tl acc from by
            simp [collide_boxes, hex]] at h
      rw [ih _ _ h]
      simp [pair_hits, hex]
    · cases hi : (bbox.expand clearance_nm).intersects_line seg_start seg_end with
      | none =>
        rw [show collide_boxes clearance_nm exclude_pins seg_start seg_end
            ((sid, bbox) :: tl) acc = none from by simp [collide_boxes, hex, hi]] at h
        exact absurd h (by simp)
      | some tv =>
        cases tv with
        | true =>
          rw [show collide_boxes clearance_nm exclude_pins seg_start seg_end
              ((sid, bbox) :: tl) acc =
              collide_boxes clearance_nm exclude_pins seg_start seg_end tl
                (acc.1 ++ [sid], acc.2 ++ [bbox.center]) from by
                simp [collide_boxes, hex, hi]] at h
          rw [ih _ _ h]
          simp [pair_hits, hex, hi]
        | false =>
          rw [show collide_boxes clearance_nm exclude_pins seg_start seg_end
              ((sid, bbox) :: tl) acc =
              collide_boxes clearance_nm exclude_pins seg_start seg_end tl acc from by
                simp [collide_boxes, hex, hi]] at h
          rw [ih _ _ h]
          simp [pair_hits, hex, hi]

theorem collide_segments_char {clearance_nm : Int} {exclude_pins : List String}
    {boxes : List (String × BoundingBox)} :
    ∀ (segs : List (Position × Position)) (acc out : List String × List Position),
      collide_segments clearance_nm exclude_pins boxes segs acc = some out →
      out = (acc.1 ++ (path_hits clearance_nm exclude_pins boxes segs).map Prod.fst,
             acc.2 ++ (path_hits clearance_nm exclude_pins boxes segs).map Prod.snd) := by
  intro segs
  induction segs with
  | nil =>
    intro acc out h
    simp only [collide_segments, Option.some.injEq] at h
    simp [path_hits, ← h]
  | cons hd tl ih =>
    obtain ⟨s0, e0⟩ := hd
    intro acc out h
    rw [show collide_segments clearance_nm exclude_pins boxes ((s0, e0) :: tl) acc =
        match collide_boxes clearance_nm exclude_pins s0 e0 boxes acc with
        | none => none
        | some acc' => collide_segments clearance_nm exclude_pins boxes tl acc' from rfl] at h
    cases hb : collide_boxes clearance_nm exclude_pins s0 e0 boxes acc with
    | none =>
      rw [hb] at h
      exact absurd h (by simp)
    | some acc' =>
      rw [hb] at h
      have hacc' := collide_boxes_char boxes acc acc' hb
      rw [ih _ _ h, hacc']
      simp [path_hits, List.append_assoc]

/-- Full characterisation of `check_path_collision`: the state is returned
unchanged, the collision points are exactly one box-center per colliding
(segment, box) pair, and the component list is the deduplicated key list. -/
theorem check_path_collision_char {m : ComponentBoundaryManager} {path : RoutingPath}
    {exclude_pins : List String} {r : CollisionResult} {m' : ComponentBoundaryManager}
    (h : check_path_collision m path exclude_pins = some (r, m')) :
    m' = m ∧
    r.colliding_components =
      ((path_hits m.clearance_nm exclude_pins m.component_boundaries path.segments).map Prod.fst).dedup ∧
    r.collision_points =
      (path_hits m.clearance_nm exclude_pins m.component_boundaries path.segments).map Prod.snd ∧
    r.suggested_clearance = m.clearance_nm * 2 ∧
    r.has_collision = decide
      (((path_hits m.clearance_nm exclude_pins m.component_boundaries path.segments).map Prod.fst).length > 0) := by
  unfold check_path_collision at h
  cases hc : collide_segments m.clearance_nm exclude_pins m.component_boundaries
      path.segments ([], []) with
  | none =>
    rw [hc] at h
    exact absurd h (by simp)
  | some acc =>
    rw [hc] at h
    obtain ⟨ids, pts⟩ := acc
    have hch := collide_segments_char path.segments ([], []) (ids, pts) hc
    simp only [Prod.mk.injEq, List.nil_append] at hch
    obtain ⟨hids, hpts⟩ := hch
    simp only [Option.some.injEq, Prod.mk.injEq] at h
    obtain ⟨hr, hm⟩ := h
    subst hids hpts
    refine ⟨hm.symm, ?_, ?_, ?_, ?_⟩ <;> rw [← hr]

/-- A segment with both endpoints inside the box is reported intersecting by
the Cohen-Sutherland test (first loop iteration returns `True`). -/
theorem intersects_line_of_contains {bb : BoundingBox} {s e : Position}
    (hs : bb.contains_point s) (he : bb.contains_point e) :
    bb.intersects_line s e = some true := by
  obtain ⟨hs1, hs2, hs3, hs4⟩ := hs
  obtain ⟨he1, he2, he3, he4⟩ := he
  show csLoop bb 8 s e = some true
  rw [show (8 : Nat) = 7 + 1 from rfl,
    csLoop_of_true (csStep_true
      (outcode_val_0 (by omega) (by omega) (by omega) (by omega))
      (outcode_val_0 (by omega) (by omega) (by omega) (by omega)))]

/-- A segment whose x-range is disjoint from a well-formed box's x-range is
reported non-intersecting (first loop iteration returns `False`; the same
holds symmetrically for a disjoint y-range). -/
theorem intersects_line_x_disjoint_false {bb : BoundingBox} {s e : Position}
    (hwfx : bb.top_left.x_nm ≤ bb.bottom_right.x_nm)
    (hwfy : bb.top_left.y_nm ≤ bb.bottom_right.y_nm)
    (hx : max s.x_nm e.x_nm < bb.top_left.x_nm ∨
      bb.bottom_right.x_nm < min s.x_nm e.x_nm) :
    bb.intersects_line s e = some false := by
  show csLoop bb 8 s e = some false
  have hand : compute_outcode bb s.x_nm s.y_nm &&& compute_outcode bb e.x_nm e.y_nm ≠ 0 := by
    rcases hx with hx | hx
    · exact (outcode_and_ne_zero_iff s.x_nm s.y_nm e.x_nm e.y_nm hwfx hwfy).mpr
        (Or.inl ⟨by omega, by omega⟩)
    · exact (outcode_and_ne_zero_iff s.x_nm s.y_nm e.x_nm e.y_nm hwfx hwfy).mpr
        (Or.inr (Or.inl ⟨by omega, by omega⟩))
  rw [show (8 : Nat) = 7 + 1 from rfl, csLoop_of_false (csStep_false hand)]

/-- In an association list with `Nodup` keys, a key determines its value. -/
theorem assoc_nodup_eq {l : List (String × BoundingBox)}
    (hnd : (l.map Prod.fst).Nodup) {k : String} {v1 v2 : BoundingBox}
    (h1 : (k, v1) ∈ l) (h2 : (k, v2) ∈ l) : v1 = v2 := by
  induction l with
  | nil => cases h1
  | cons hd tl ih =>
    obtain ⟨a, bv⟩ := hd
    simp only [List.map_cons, List.nodup_cons] at hnd
    rcases List.mem_cons.mp h1 with h1 | h1 <;> rcases List.mem_cons.mp h2 with h2 | h2
    · rw [Prod.mk.injEq] at h1 h2
      rw [h1.2, h2.2]
    · exfalso
      rw [Prod.mk.injEq] at h1
      exact hnd.1 (h1.1 ▸ (List.mem_map_of_mem Prod.fst h2))
    · exfalso
      rw [Prod.mk.injEq] at h2
      exact hnd.1 (h2.1 ▸ (List.mem_map_of_mem Prod.fst h1))
    · exact ih hnd.2 h1 h2

theorem mem_pair_hits_of {clearance_nm : Int} {exclude_pins : List String}
    {seg_start seg_end : Position} {boxes : List (String × BoundingBox)}
    {sid : String} {bbox : BoundingBox}
    (hmem : (sid, bbox) ∈ boxes) (hex : sid ∉ exclude_pins)
    (hi : (bbox.expand clearance_nm).intersects_line seg_start seg_end = some true) :
    (sid, bbox.center) ∈ pair_hits clearance_nm exclude_pins seg_start seg_end boxes := by
  exact List.mem_filterMap.mpr ⟨(sid, bbox), hmem, by simp [hex, hi]⟩

theorem not_mem_pair_hits_keys {clearance_nm : Int} {exclude_pins : List String}
    {seg_start seg_end : Position} {boxes : List (String × BoundingBox)}
    {sid : String} {bbox : BoundingBox}
    (hmem : (sid, bbox) ∈ boxes) (hnd : (boxes.map Prod.fst).Nodup)
    (hi : (bbox.expand clearance_nm).intersects_line seg_start seg_end = some false) :
    sid ∉ (pair_hits clearance_nm exclude_pins seg_start seg_end boxes).map Prod.fst := by
  intro hin
  obtain ⟨⟨sid', pos⟩, hhit, hfst⟩ := List.mem_map.mp hin
  obtain ⟨⟨sid2, bbox2⟩, hmem2, hcond⟩ := List.mem_filterMap.mp hhit
  by_cases hex : sid2 ∈ exclude_pins
  · simp [hex] at hcond
  · by_cases hint : (bbox2.expand clearance_nm).intersects_line seg_start seg_end = some true
    · simp only [hex, if_false, hint, if_true, Option.some.injEq, Prod.mk.injEq] at hcond
      have hsid : sid2 = sid := by
        rw [hcond.1]
        exact hfst
      have heq : bbox2 = bbox := assoc_nodup_eq hnd (hsid ▸ hmem2) hmem
      rw [heq, hi] at hint
      exact absurd hint (by simp)
    · simp [hex, hint] at hcond

/-! ### Concrete fixtures used by witnesses -/

def box_c1 : BoundingBox :=
  ⟨⟨-1000000, -1000000⟩, ⟨1000000, 1000000⟩, "c1", BoundingBoxType.BODY_PINS⟩

def mgr_c1 : ComponentBoundaryManager := ⟨635000, [("c1", box_c1)]⟩

noncomputable def path_one_seg : RoutingPath :=
  ⟨none, none, [(⟨0, 0⟩, ⟨1, 1⟩)], 0, RoutingMode.MANHATTAN, 0, none⟩

noncomputable def path_two_segs : RoutingPath :=
  ⟨none, none, [(⟨0, 0⟩, ⟨1, 1⟩), (⟨2, 2⟩, ⟨3, 3⟩)], 0, RoutingMode.MANHATTAN, 0, none⟩

/-- C8. For every line segment with integer endpoints and every bounding box
with `top_left.x ≤ bottom_right.x` and `top_left.y ≤ bottom_right.y`, the
Cohen-Sutherland loop of `_line_intersects_rectangle` terminates with `True`
or `False` (within the modelled fuel of 8 iterations) and never performs an
integer division with a zero divisor: the fuel-and-`Option` embedding returns
`some` (a `none` would signal either a `ZeroDivisionError` or fuel
exhaustion). -/
theorem C8_line_intersects_rectangle_terminates (b : BoundingBox) (p1 p2 : Position)
    (hwfx : b.top_left.x_nm ≤ b.bottom_right.x_nm)
    (hwfy : b.top_left.y_nm ≤ b.bottom_right.y_nm) :
    (b.intersects_line p1 p2).isSome = true :=
  csLoop_terminates hwfx hwfy p1 p2

theorem C8_line_intersects_rectangle_terminates_witness :
    (0 : Int) ≤ 10 ∧
    ((⟨⟨0, 0⟩, ⟨10, 10⟩, "w8", BoundingBoxType.BODY_PINS⟩ : BoundingBox).intersects_line
      ⟨-5, 5⟩ ⟨15, 5⟩).isSome = true :=
  ⟨by decide, C8_line_intersects_rectangle_terminates _ _ _ (by decide) (by decide)⟩

/-- C6. For every routing path and every exclude set, a successful
`check_path_collision` call returns `suggested_clearance` equal to exactly
twice the manager's configured clearance, independent of how many collisions
were found. -/
theorem C6_suggested_clearance_is_double (m : ComponentBoundaryManager)
    (path : RoutingPath) (exclude_pins : List String) (r : CollisionResult)
    (m' : ComponentBoundaryManager)
    (h : check_path_collision m path exclude_pins = some (r, m')) :
    r.suggested_clearance = 2 * m.clearance_nm := by
  have hc := (check_path_collision_char h).2.2.2.1
  omega

theorem C6_suggested_clearance_is_double_witness :
    check_path_collision mgr_c1 path_one_seg [] =
      some (⟨true, ["c1"], [⟨0, 0⟩], 1270000⟩, mgr_c1) ∧
    (⟨true, ["c1"], [⟨0, 0⟩], 1270000⟩ : CollisionResult).suggested_clearance =
      2 * mgr_c1.clearance_nm := by
  have h : check_path_collision mgr_c1 path_one_seg [] =
      some (⟨true, ["c1"], [⟨0, 0⟩], 1270000⟩, mgr_c1) := by decide
  exact ⟨h, C6_suggested_clearance_is_double _ _ _ _ _ h⟩

/-- C9. `check_path_collision` is a pure query on the manager: a successful
call returns the manager unchanged, so the `component_boundaries` dict (all
keys and stored boxes) and `clearance_nm` are exactly what they were. -/
theorem C9_check_path_collision_pure (m : ComponentBoundaryManager)
    (path : RoutingPath) (exclude_pins : List String) (r : CollisionResult)
    (m' : ComponentBoundaryManager)
    (h : check_path_collision m path exclude_pins = some (r, m')) :
    m' = m ∧ m'.component_boundaries = m.component_boundaries ∧
    m'.clearance_nm = m.clearance_nm := by
  have hm := (check_path_collision_char h).1
  exact ⟨hm, by rw [hm], by rw [hm]⟩

theorem C9_check_path_collision_pure_witness :
    check_path_collision mgr_c1 path_one_seg [] =
      some (⟨true, ["c1"], [⟨0, 0⟩], 1270000⟩, mgr_c1) ∧
    mgr_c1.component_boundaries = mgr_c1.component_boundaries := by
  have h : check_path_collision mgr_c1 path_one_seg [] =
      some (⟨true, ["c1"], [⟨0, 0⟩], 1270000⟩, mgr_c1) := by decide
  exact ⟨h, (C9_check_path_collision_pure _ _ _ _ _ h).2.1⟩

/-- C5. For a stored, non-excluded box and a successful call:
(1) a path segment with both endpoints inside the box expanded by the
configured clearance makes the box's id appear in `colliding_components`;
(2) a segment whose x-range and y-range are both disjoint from the
well-formed expanded box's ranges fails the intersection test for that box;
and (3) if every segment of the path is range-disjoint from the expanded box
(and the dict keys are distinct), the box is never reported as colliding. -/
theorem C5_check_path_collision_inside_outside (m : ComponentBoundaryManager)
    (path : RoutingPath) (exclude_pins : List String) (sid : String)
    (bbox : BoundingBox) (seg_start seg_end : Position) (r : CollisionResult)
    (m' : ComponentBoundaryManager)
    (hmem : (sid, bbox) ∈ m.component_boundaries)
    (hex : sid ∉ exclude_pins)
    (hrun : check_path_collision m path exclude_pins = some (r, m')) :
    (((seg_start, seg_end) ∈ path.segments ∧
      (bbox.expand m.clearance_nm).contains_point seg_start ∧
      (bbox.expand m.clearance_nm).contains_point seg_end) →
      sid ∈ r.colliding_components) ∧
    (((bbox.expand m.clearance_nm).top_left.x_nm ≤ (bbox.expand m.clearance_nm).bottom_right.x_nm ∧
      (bbox.expand m.clearance_nm).top_left.y_nm ≤ (bbox.expand m.clearance_nm).bottom_right.y_nm) →
     ((max seg_start.x_nm seg_end.x_nm < (bbox.expand m.clearance_nm).top_left.x_nm ∨
        (bbox.expand m.clearance_nm).bottom_right.x_nm < min seg_start.x_nm seg_end.x_nm) ∧
      (max seg_start.y_nm seg_end.y_nm < (bbox.expand m.clearance_nm).top_left.y_nm ∨
        (bbox.expand m.clearance_nm).bottom_right.y_nm < min seg_start.y_nm seg_end.y_nm)) →
      (bbox.expand m.clearance_nm).intersects_line seg_start seg_end = some false) ∧
    (((bbox.expand m.clearance_nm).top_left.x_nm ≤ (bbox.expand m.clearance_nm).bottom_right.x_nm ∧
      (bbox.expand m.clearance_nm).top_left.y_nm ≤ (bbox.expand m.clearance_nm).bottom_right.y_nm) →
     (m.component_boundaries.map Prod.fst).Nodup →
     (∀ s' e', (s', e') ∈ path.segments →
       ((max s'.x_nm e'.x_nm < (bbox.expand m.clearance_nm).top_left.x_nm ∨
          (bbox.expand m.clearance_nm).bottom_right.x_nm < min s'.x_nm e'.x_nm) ∧
        (max s'.y_nm e'.y_nm < (bbox.expand m.clearance_nm).top_left.y_nm ∨
          (bbox.expand m.clearance_nm).bottom_right.y_nm < min s'.y_nm e'.y_nm))) →
      sid ∉ r.colliding_components) := by
  refine ⟨?_, ?_, ?_⟩
  · rintro ⟨hseg, hcs, hce⟩
    have hi := intersects_line_of_contains hcs hce
    have hpair := mem_pair_hits_of hmem hex hi
    have hsub : pair_hits m.clearance_nm exclude_pins seg_start seg_end
        m.component_boundaries ∈ path.segments.map (fun seg =>
          pair_hits m.clearance_nm exclude_pins seg.1 seg.2 m.component_boundaries) :=
      List.mem_map.mpr ⟨(seg_start, seg_end), hseg, rfl⟩
    have hflat : (sid, bbox.center) ∈ path_hits m.clearance_nm exclude_pins
        m.component_boundaries path.segments :=
      List.mem_flatten.mpr ⟨_, hsub, hpair⟩
    rw [(check_path_collision_char hrun).2.1]
    exact List.mem_dedup.mpr (List.mem_map.mpr ⟨_, hflat, rfl⟩)
  · rintro ⟨hwfx, hwfy⟩ ⟨hdx, _⟩
    exact intersects_line_x_disjoint_false hwfx hwfy hdx
  · rintro ⟨hwfx, hwfy⟩ hnd hall hin
    rw [(check_path_collision_char hrun).2.1] at hin
    obtain ⟨⟨sid', pos⟩, hmemhits, hfst⟩ := List.mem_map.mp (List.mem_dedup.mp hin)
    obtain ⟨sub, hsubm, hmem2⟩ := List.mem_flatten.mp hmemhits
    obtain ⟨⟨s', e'⟩, hseg', hsubeq⟩ := List.mem_map.mp hsubm
    obtain ⟨hdx, _⟩ := hall s' e' hseg'
    have hfalse := intersects_line_x_disjoint_false hwfx hwfy hdx
    refine @not_mem_pair_hits_keys m.clearance_nm exclude_pins s' e'
      m.component_boundaries sid bbox hmem hnd hfalse ?_
    rw [← hsubeq] at hmem2
    exact List.mem_map.mpr ⟨(sid', pos), hmem2, hfst⟩

theorem C5_check_path_collision_inside_outside_witness :
    check_path_collision mgr_c1 path_one_seg [] =
      some (⟨true, ["c1"], [⟨0, 0⟩], 1270000⟩, mgr_c1) ∧
    "c1" ∈ (⟨true, ["c1"], [⟨0, 0⟩], 1270000⟩ : CollisionResult).colliding_components := by
  have h : check_path_collision mgr_c1 path_one_seg [] =
      some (⟨true, ["c1"], [⟨0, 0⟩], 1270000⟩, mgr_c1) := by decide
  refine ⟨h, (C5_check_path_collision_inside_outside mgr_c1 path_one_seg []
    "c1" box_c1 ⟨0, 0⟩ ⟨1, 1⟩ _ _ (by decide) (by decide) h).1 ⟨by decide, by decide, by decide⟩⟩

/-- C10. For every successful call the colliding-component list holds each id
at most once, while `collision_points` receives one entry (the unexpanded
box's center) per colliding (segment, box) pair; on a concrete store whose
single box is crossed by two path segments, `collision_points` holds that
box's center twice and is strictly longer than the deduplicated component
list. -/
theorem C10_collision_points_multiplicity :
    (∀ (m : ComponentBoundaryManager) (path : RoutingPath)
       (exclude_pins : List String) (r : CollisionResult)
       (m' : ComponentBoundaryManager),
       check_path_collision m path exclude_pins = some (r, m') →
       r.colliding_components.Nodup ∧
       r.collision_points = (path_hits m.clearance_nm exclude_pins
         m.component_boundaries path.segments).map Prod.snd ∧
       r.collision_points.length = (path_hits m.clearance_nm exclude_pins
         m.component_boundaries path.segments).length) ∧
    (check_path_collision mgr_c1 path_two_segs [] =
      some (⟨true, ["c1"], [⟨0, 0⟩, ⟨0, 0⟩], 1270000⟩, mgr_c1) ∧
     (⟨true, ["c1"], [⟨0, 0⟩, ⟨0, 0⟩], 1270000⟩ : CollisionResult).collision_points =
       [box_c1.center, box_c1.center] ∧
     (⟨true, ["c1"], [⟨0, 0⟩, ⟨0, 0⟩], 1270000⟩ : CollisionResult).collision_points.length >
       (⟨true, ["c1"], [⟨0, 0⟩, ⟨0, 0⟩], 1270000⟩ : CollisionResult).colliding_components.length) := by
  constructor
  · intro m path exclude_pins r m' h
    obtain ⟨-, hids, hpts, -, -⟩ := check_path_collision_char h
    refine ⟨?_, hpts, ?_⟩
    · rw [hids]
      exact List.nodup_dedup _
    · rw [hpts, List.length_map]
  · exact ⟨by decide, by decide, by decide⟩

theorem C10_collision_points_multiplicity_witness :
    check_path_collision mgr_c1 path_two_segs [] =
      some (⟨true, ["c1"], [⟨0, 0⟩, ⟨0, 0⟩], 1270000⟩, mgr_c1) ∧
    (⟨true, ["c1"], [⟨0, 0⟩, ⟨0, 0⟩], 1270000⟩ : CollisionResult).colliding_components.Nodup := by
  have h : check_path_collision mgr_c1 path_two_segs [] =
      some (⟨true, ["c1"], [⟨0, 0⟩, ⟨0, 0⟩], 1270000⟩, mgr_c1) := by decide
  exact ⟨h, (C10_collision_points_multiplicity.1 _ _ _ _ _ h).1⟩

/-! ### Distance lemmas for the Manhattan-path theorems -/

theorem distance_to_same_x {p q : Position} (h : p.x_nm = q.x_nm) :
    p.distance_to q = |((p.y_nm - q.y_nm : ℤ) : ℝ)| := by
  unfold Position.distance_to
  rw [h, sub_self]
  push_cast
  rw [show ((0 : ℝ) * 0 + (↑p.y_nm - ↑q.y_nm) * (↑p.y_nm - ↑q.y_nm) : ℝ) =
    ((p.y_nm : ℝ) - (q.y_nm : ℝ)) * ((p.y_nm : ℝ) - (q.y_nm : ℝ)) from by ring]
  rw [Real.sqrt_mul_self_eq_abs]

theorem distance_to_same_y {p q : Position} (h : p.y_nm = q.y_nm) :
    p.distance_to q = |((p.x_nm - q.x_nm : ℤ) : ℝ)| := by
  unfold Position.distance_to
  rw [h, sub_self]
  push_cast
  rw [show (((p.x_nm : ℝ) - ↑q.x_nm) * (↑p.x_nm - ↑q.x_nm) + 0 * 0 : ℝ) =
    ((p.x_nm : ℝ) - (q.x_nm : ℝ)) * ((p.x_nm : ℝ) - (q.x_nm : ℝ)) from by ring]
  rw [Real.sqrt_mul_self_eq_abs]

/-- The two functions generating the direct path have identical bodies. -/
theorem generate_manhattan_path_eq_direct (sp ep : Pin) (avoid : List SchSymbol) :
    generate_manhattan_path sp ep avoid = _generate_direct_manhattan_path sp ep avoid :=
  rfl

/-- The direct Manhattan path's stored total length is `|dx| + |dy|` of the
two pin positions, whichever L-corner the break point picks. -/
theorem direct_total_length (sp ep : Pin) (avoid : List SchSymbol) :
    (_generate_direct_manhattan_path sp ep avoid).total_length =
      ((|ep.position.x_nm - sp.position.x_nm| +
        |ep.position.y_nm - sp.position.y_nm| : ℤ) : ℝ) := by
  show sp.position.distance_to
      (compute_break_point sp.position ep.position RoutingMode.MANHATTAN
        (_get_routing_preferences sp ep).1 (_get_routing_preferences sp ep).2) +
    (compute_break_point sp.position ep.position RoutingMode.MANHATTAN
        (_get_routing_preferences sp ep).1 (_get_routing_preferences sp ep).2).distance_to
      ep.position = _
  rw [compute_break_point_manhattan_eq]
  rcases (_get_routing_preferences sp ep) with ⟨ph, pv⟩
  have hvert : sp.position.distance_to (⟨sp.position.x_nm, ep.position.y_nm⟩ : Position) +
      (⟨sp.position.x_nm, ep.position.y_nm⟩ : Position).distance_to ep.position =
      ((|ep.position.x_nm - sp.position.x_nm| +
        |ep.position.y_nm - sp.position.y_nm| : ℤ) : ℝ) := by
    rw [distance_to_same_x (show sp.position.x_nm =
        (⟨sp.position.x_nm, ep.position.y_nm⟩ : Position).x_nm from rfl),
      distance_to_same_y (show (⟨sp.position.x_nm, ep.position.y_nm⟩ : Position).y_nm =
        ep.position.y_nm from rfl)]
    push_cast
    rw [abs_sub_comm (sp.position.y_nm : ℝ), abs_sub_comm (sp.position.x_nm : ℝ)]
    ring
  have hhoriz : sp.position.distance_to (⟨ep.position.x_nm, sp.position.y_nm⟩ : Position) +
      (⟨ep.position.x_nm, sp.position.y_nm⟩ : Position).distance_to ep.position =
      ((|ep.position.x_nm - sp.position.x_nm| +
        |ep.position.y_nm - sp.position.y_nm| : ℤ) : ℝ) := by
    rw [distance_to_same_y (show sp.position.y_nm =
        (⟨ep.position.x_nm, sp.position.y_nm⟩ : Position).y_nm from rfl),
      distance_to_same_x (show (⟨ep.position.x_nm, sp.position.y_nm⟩ : Position).x_nm =
        ep.position.x_nm from rfl)]
    push_cast
    rw [abs_sub_comm (sp.position.x_nm : ℝ), abs_sub_comm (sp.position.y_nm : ℝ)]
  cases pv <;> cases ph <;>
    first
      | exact hvert
      | exact hhoriz
      | (simp only [if_true, if_false, Bool.false_eq_true, Bool.true_eq_false]
         <;> first
          | exact hvert
          | exact hhoriz
          | (split_ifs <;> first | exact hvert | exact hhoriz))

/-- C2 (amended). For every pair of start and end pins, the direct
Manhattan path — produced by `generate_manhattan_path` and by
`_generate_direct_manhattan_path` — has `total_length` equal to
`|end.x - start.x| + |end.y - start.y|`, regardless of which axis is routed
first.  (The bus-aware path does not satisfy this; see the counterexample.) -/
theorem C2_direct_manhattan_total_length (sp ep : Pin) (avoid : List SchSymbol) :
    (generate_manhattan_path sp ep avoid).total_length =
      ((|ep.position.x_nm - sp.position.x_nm| +
        |ep.position.y_nm - sp.position.y_nm| : ℤ) : ℝ) ∧
    (_generate_direct_manhattan_path sp ep avoid).total_length =
      ((|ep.position.x_nm - sp.position.x_nm| +
        |ep.position.y_nm - sp.position.y_nm| : ℤ) : ℝ) := by
  constructor
  · rw [generate_manhattan_path_eq_direct]
    exact direct_total_length sp ep avoid
  · exact direct_total_length sp ep avoid

/-- Dict assignment followed by lookup on the same key yields the new value. -/
theorem lookup_dict_insert (l : List (String × BoundingBox)) (k : String)
    (v : BoundingBox) : (dict_insert l k v).lookup k = some v := by
  induction l with
  | nil => simp [dict_insert, List.lookup]
  | cons hd tl ih =>
    obtain ⟨k', v'⟩ := hd
    by_cases h : k' = k
    · subst h
      simp [dict_insert, List.lookup]
    · have hbeq : (k == k') = false := by
        rw [beq_eq_false_iff_ne]
        exact fun he => h he.symm
      simp only [dict_insert, if_neg h, List.lookup, hbeq]
      exact ih

/-- C4 (amended). `add_component_boundary` stores, for a symbol without pins,
a box of half-width 1.27 mm (1,270,000 nm) around the symbol position — not
2.54 mm as claimed — and, for a symbol with pins, the min/max pin extent
expanded by 0.635 mm (635,000 nm) on every side. -/
theorem C4_add_component_boundary_boxes (m : ComponentBoundaryManager)
    (symbol : SchSymbol) (bbox_type : BoundingBoxType) :
    (symbol.pins = [] →
      (add_component_boundary m symbol bbox_type).component_boundaries.lookup symbol.id =
        some ⟨⟨symbol.position.x_nm - 1270000, symbol.position.y_nm - 1270000⟩,
              ⟨symbol.position.x_nm + 1270000, symbol.position.y_nm + 1270000⟩,
              symbol.id, bbox_type⟩) ∧
    (∀ p ps, symbol.pins = p :: ps →
      (add_component_boundary m symbol bbox_type).component_boundaries.lookup symbol.id =
        some ⟨⟨(ps.map (fun pin => pin.position.x_nm)).foldl min p.position.x_nm - 635000,
               (ps.map (fun pin => pin.position.y_nm)).foldl min p.position.y_nm - 635000⟩,
              ⟨(ps.map (fun pin => pin.position.x_nm)).foldl max p.position.x_nm + 635000,
               (ps.map (fun pin => pin.position.y_nm)).foldl max p.position.y_nm + 635000⟩,
              symbol.id, bbox_type⟩) := by
  constructor
  · intro hp
    simp only [add_component_boundary, hp]
    exact lookup_dict_insert m.component_boundaries symbol.id _
  · intro p ps hp
    simp only [add_component_boundary, hp]
    exact lookup_dict_insert m.component_boundaries symbol.id _

/-- C7. `optimize_routing_corridor` never raises: a zero-area corridor gives
density 0 and strategy `"direct"`, otherwise the strategy label follows the
density thresholds 0.1 and 0.3. -/
theorem C7_optimize_routing_corridor_strategy (m : ComponentBoundaryManager)
    (start e : Position) :
    ((|e.x_nm - start.x_nm| * |e.y_nm - start.y_nm| = 0) →
      (optimize_routing_corridor m start e).obstacle_density = 0 ∧
      (optimize_routing_corridor m start e).suggested_strategy = "direct") ∧
    ((optimize_routing_corridor m start e).obstacle_density < 0.1 →
      (optimize_routing_corridor m start e).suggested_strategy = "direct") ∧
    (0.1 ≤ (optimize_routing_corridor m start e).obstacle_density →
      (optimize_routing_corridor m start e).obstacle_density < 0.3 →
      (optimize_routing_corridor m start e).suggested_strategy = "simple_detour") ∧
    (0.3 ≤ (optimize_routing_corridor m start e).obstacle_density →
      (optimize_routing_corridor m start e).suggested_strategy = "complex_multi_segment") := by
  have hdens : (optimize_routing_corridor m start e).obstacle_density =
      (if |e.x_nm - start.x_nm| * |e.y_nm - start.y_nm| > 0 then
        ((((find_components_in_region m start e).map
            (fun bbox => bbox.width * bbox.height)).foldl (· + ·) 0 : ℤ) : ℚ) /
          ((|e.x_nm - start.x_nm| * |e.y_nm - start.y_nm| : ℤ) : ℚ)
       else 0) := rfl
  have hstrat : (optimize_routing_corridor m start e).suggested_strategy =
      (if (optimize_routing_corridor m start e).obstacle_density < 0.1 then "direct"
       else if (optimize_routing_corridor m start e).obstacle_density < 0.3 then
         "simple_detour"
       else "complex_multi_segment") := rfl
  refine ⟨?_, ?_, ?_, ?_⟩
  · intro h0
    have hng : ¬(|e.x_nm - start.x_nm| * |e.y_nm - start.y_nm| > 0) := by omega
    have hd0 : (optimize_routing_corridor m start e).obstacle_density = 0 := by
      rw [hdens, if_neg hng]
    refine ⟨hd0, ?_⟩
    rw [hstrat, if_pos (by rw [hd0]; norm_num)]
  · intro h
    rw [hstrat, if_pos h]
  · intro h1 h2
    rw [hstrat, if_neg (not_lt.mpr h1), if_pos h2]
  · intro h
    rw [hstrat, if_neg (not_lt.mpr (le_trans (by norm_num) h)),
      if_neg (not_lt.mpr h)]

theorem C7_optimize_routing_corridor_strategy_witness :
    (optimize_routing_corridor ⟨635000, []⟩ ⟨0, 0⟩ ⟨0, 0⟩).obstacle_density = 0 ∧
    (optimize_routing_corridor ⟨635000, []⟩ ⟨0, 0⟩ ⟨0, 0⟩).suggested_strategy = "direct" :=
  (C7_optimize_routing_corridor_strategy ⟨635000, []⟩ ⟨0, 0⟩ ⟨0, 0⟩).1 (by decide)

noncomputable def sym_nopins : SchSymbol := ⟨"s1", "R1", "1k", ⟨0, 0⟩, 0, []⟩

def pin_s2a : Pin := ⟨"p1", "1", "1", ⟨-5000000, 0⟩, 0, 4, 25400, ""⟩

def pin_s2b : Pin := ⟨"p2", "2", "2", ⟨5000000, 0⟩, 2, 4, 25400, ""⟩

noncomputable def sym_pins : SchSymbol := ⟨"s2", "R2", "1k", ⟨0, 0⟩, 0, [pin_s2a, pin_s2b]⟩

/-- C4 counterexample: for a pinless symbol at the origin the stored box
corner is at -1,270,000 nm (1.27 mm margin), not at -2,540,000 nm (2.54 mm)
as the claim states. -/
theorem C4_margin_counterexample :
    ((add_component_boundary ⟨635000, []⟩ sym_nopins
        BoundingBoxType.BODY_PINS).component_boundaries.lookup "s1").map
      BoundingBox.top_left = some ⟨-1270000, -1270000⟩ ∧
    some (⟨-1270000, -1270000⟩ : Position) ≠ some (⟨-2540000, -2540000⟩ : Position) :=
  ⟨by decide, by decide⟩

theorem C4_add_component_boundary_boxes_witness :
    (add_component_boundary ⟨635000, []⟩ sym_nopins
        BoundingBoxType.BODY_PINS).component_boundaries.lookup "s1" =
      some ⟨⟨-1270000, -1270000⟩, ⟨1270000, 1270000⟩, "s1", BoundingBoxType.BODY_PINS⟩ ∧
    (add_component_boundary ⟨635000, []⟩ sym_pins
        BoundingBoxType.BODY_PINS).component_boundaries.lookup "s2" =
      some ⟨⟨-5635000, -635000⟩, ⟨5635000, 635000⟩, "s2", BoundingBoxType.BODY_PINS⟩ := by
  constructor
  · exact (C4_add_component_boundary_boxes ⟨635000, []⟩ sym_nopins
      BoundingBoxType.BODY_PINS).1 rfl
  · exact (C4_add_component_boundary_boxes ⟨635000, []⟩ sym_pins
      BoundingBoxType.BODY_PINS).2 pin_s2a [pin_s2b] rfl

/-! ### Fixtures for the bus-aware routing claims -/

def pinA : Pin := ⟨"pa", "A", "1", ⟨0, 0⟩, 0, 4, 25400, ""⟩

def pinB : Pin := ⟨"pb", "B", "2", ⟨20000000, 20000000⟩, 0, 4, 25400, ""⟩

def pinZ : Pin := ⟨"pz", "Z", "1", ⟨0, 0⟩, 0, 4, 25400, ""⟩

def busWire : Wire :=
  ⟨"bus1", "WIRE", 20000000, true, false, ⟨0, 10000000⟩, ⟨20000000, 10000000⟩⟩

def bus0 : BusStructure :=
  ⟨"horizontal", "bus1", 10000000, 0, 20000000, 20000000, ⟨0, 10000000⟩,
   ⟨20000000, 10000000⟩⟩

theorem analyze_single : _analyze_bus_structures [busWire] = [bus0] := by
  rw [show _analyze_bus_structures [busWire] =
    List.mergeSort [bus0] (fun a b => decide (b.length_nm ≤ a.length_nm)) from rfl]
  exact List.mergeSort_singleton bus0

theorem conn_AB :
    _find_optimal_bus_connection_point ⟨0, 0⟩ ⟨20000000, 20000000⟩ bus0 =
      some ⟨10000000, 10000000⟩ := by decide

theorem conn_ZZ :
    _find_optimal_bus_connection_point ⟨0, 0⟩ ⟨0, 0⟩ bus0 = some ⟨0, 10000000⟩ := by
  decide

/-- Evaluating `_generate_bus_routing_path` on a single bus with a known
connection point. -/
theorem bus_routing_single (s e : Position) (bus : BusStructure) (cp : Position)
    (h : _find_optimal_bus_connection_point s e bus = some cp) :
    _generate_bus_routing_path s e [bus] = some
      { start_pin := none
        end_pin := none
        segments :=
          (if cp.x_nm ≠ e.x_nm ∨ cp.y_nm ≠ e.y_nm then
            (if s.x_nm ≠ cp.x_nm ∧ s.y_nm ≠ cp.y_nm then
              [(s, ⟨cp.x_nm, s.y_nm⟩), (⟨cp.x_nm, s.y_nm⟩, cp)]
            else [(s, cp)]) ++ [(cp, e)]
          else
            (if s.x_nm ≠ cp.x_nm ∧ s.y_nm ≠ cp.y_nm then
              [(s, ⟨cp.x_nm, s.y_nm⟩), (⟨cp.x_nm, s.y_nm⟩, cp)]
            else [(s, cp)]))
        total_length := s.distance_to cp + cp.distance_to e
        mode := RoutingMode.MANHATTAN
        quality_score := 1000000.0 / (s.distance_to cp + cp.distance_to e + 1.0)
        bus_used := some bus.id } := by
  unfold _generate_bus_routing_path
  rw [List.foldl_cons, List.foldl_nil]
  simp only [h]
  rw [if_pos trivial]

theorem dist_diag_first :
    Position.distance_to ⟨0, 0⟩ ⟨10000000, 10000000⟩ = 10000000 * Real.sqrt 2 := by
  unfold Position.distance_to
  norm_num
  rw [show (200000000000000 : ℝ) = (10000000 : ℝ) ^ 2 * 2 from by norm_num,
    Real.sqrt_mul (by positivity) 2, Real.sqrt_sq (by norm_num)]

theorem dist_diag_second :
    Position.distance_to ⟨10000000, 10000000⟩ ⟨20000000, 20000000⟩ =
      10000000 * Real.sqrt 2 := by
  unfold Position.distance_to
  norm_num
  rw [show (200000000000000 : ℝ) = (10000000 : ℝ) ^ 2 * 2 from by norm_num,
    Real.sqrt_mul (by positivity) 2, Real.sqrt_sq (by norm_num)]

/-- The bus-aware candidate path that `_generate_bus_routing_path` builds for
`pinA → pinB` through the horizontal bus: L-shaped segments, but a
`total_length` equal to the two diagonal Euclidean legs. -/
noncomputable def busPathAB : RoutingPath :=
  { start_pin := none
    end_pin := none
    segments := [(⟨0, 0⟩, ⟨10000000, 0⟩), (⟨10000000, 0⟩, ⟨10000000, 10000000⟩),
      (⟨10000000, 10000000⟩, ⟨20000000, 20000000⟩)]
    total_length := 10000000 * Real.sqrt 2 + 10000000 * Real.sqrt 2
    mode := RoutingMode.MANHATTAN
    quality_score := 1000000.0 / (10000000 * Real.sqrt 2 + 10000000 * Real.sqrt 2 + 1.0)
    bus_used := some "bus1" }

theorem bus_path_AB :
    _generate_bus_routing_path ⟨0, 0⟩ ⟨20000000, 20000000⟩ [bus0] = some busPathAB := by
  rw [bus_routing_single _ _ _ _ conn_AB, dist_diag_first, dist_diag_second]
  norm_num [busPathAB, bus0]

theorem direct_AB_length :
    (_generate_direct_manhattan_path pinA pinB []).total_length = (40000000 : ℝ) := by
  rw [direct_total_length]
  norm_num [pinA, pinB]

theorem is_better_AB :
    _is_better_path busPathAB (_generate_direct_manhattan_path pinA pinB []) =
      some true := by
  unfold _is_better_path
  rw [direct_AB_length]
  rw [if_neg (by norm_num : ¬(40000000 : ℝ) = 0)]
  have h2 := Real.sq_sqrt (show (0 : ℝ) ≤ 2 from by norm_num)
  have h2n := Real.sqrt_nonneg 2
  have himp : ((40000000 : ℝ) - busPathAB.total_length) / 40000000 > 0.1 := by
    show ((40000000 : ℝ) - (10000000 * Real.sqrt 2 + 10000000 * Real.sqrt 2)) / 40000000 > 0.1
    rw [gt_iff_lt, lt_div_iff (by norm_num : (0 : ℝ) < 40000000)]
    nlinarith
  rw [if_pos himp]

/-- C2 counterexample: with one long horizontal bus wire, the bus-aware
routing is selected (it is ≈29% shorter by its own metric), and the returned
path's `total_length` is `20,000,000·√2` nm — not `|dx| + |dy| = 40,000,000`
nm of its endpoints. -/
theorem C2_bus_total_length_counterexample :
    (generate_bus_aware_manhattan_path pinA pinB [] [busWire]).map
      RoutingPath.total_length =
      some (10000000 * Real.sqrt 2 + 10000000 * Real.sqrt 2) ∧
    (10000000 * Real.sqrt 2 + 10000000 * Real.sqrt 2 : ℝ) ≠
      ((|pinB.position.x_nm - pinA.position.x_nm| +
        |pinB.position.y_nm - pinA.position.y_nm| : ℤ) : ℝ) := by
  have h2 := Real.sq_sqrt (show (0 : ℝ) ≤ 2 from by norm_num)
  have h2n := Real.sqrt_nonneg 2
  constructor
  · simp only [generate_bus_aware_manhattan_path, Pin.get_connection_point]
    rw [show pinA.position = (⟨0, 0⟩ : Position) from rfl,
      show pinB.position = (⟨20000000, 20000000⟩ : Position) from rfl,
      analyze_single]
    rw [if_pos (by simp : ([bus0] : List BusStructure) ≠ [])]
    simp only [bus_path_AB, is_better_AB]
    simp [busPathAB]
  · intro heq
    rw [show pinA.position = (⟨0, 0⟩ : Position) from rfl,
      show pinB.position = (⟨20000000, 20000000⟩ : Position) from rfl] at heq
    norm_num at heq
    nlinarith

/-- C3 (amended). Provided the direct Manhattan path has nonzero length,
`generate_bus_aware_manhattan_path` returns either the direct path, or a
bus-based path (with the pins filled in) whose length improvement over the
direct path is `> 10%`, or `> 5%` and strictly shorter in absolute terms.
When the direct length is zero and a bus candidate exists, the comparison in
`_is_better_path` raises `ZeroDivisionError` instead (see the
counterexample). -/
theorem C3_bus_selection_rule (sp ep : Pin) (avoid : List SchSymbol)
    (wires : List Wire)
    (hne : (_generate_direct_manhattan_path sp ep avoid).total_length ≠ 0) :
    ∀ r, generate_bus_aware_manhattan_path sp ep avoid wires = some r →
      r = _generate_direct_manhattan_path sp ep avoid ∨
      ∃ bp, _generate_bus_routing_path sp.get_connection_point
          ep.get_connection_point (_analyze_bus_structures wires) = some bp ∧
        r = { bp with start_pin := some sp, end_pin := some ep } ∧
        (((_generate_direct_manhattan_path sp ep avoid).total_length - bp.total_length) /
            (_generate_direct_manhattan_path sp ep avoid).total_length > 0.1 ∨
         (((_generate_direct_manhattan_path sp ep avoid).total_length - bp.total_length) /
            (_generate_direct_manhattan_path sp ep avoid).total_length > 0.05 ∧
          bp.total_length < (_generate_direct_manhattan_path sp ep avoid).total_length)) := by
  intro r hr
  by_cases hbs : _analyze_bus_structures wires = []
  · left
    simp only [generate_bus_aware_manhattan_path, hbs] at hr
    rw [if_neg (fun hcon => hcon rfl)] at hr
    exact (Option.some.inj hr).symm
  · cases hgen : _generate_bus_routing_path sp.get_connection_point
        ep.get_connection_point (_analyze_bus_structures wires) with
    | none =>
      left
      simp only [generate_bus_aware_manhattan_path] at hr
      rw [if_pos hbs, hgen] at hr
      exact (Option.some.inj hr).symm
    | some bp =>
      by_cases h1 : ((_generate_direct_manhattan_path sp ep avoid).total_length -
          bp.total_length) /
          (_generate_direct_manhattan_path sp ep avoid).total_length > 0.1
      · right
        have hib : _is_better_path bp (_generate_direct_manhattan_path sp ep avoid) =
            some true := by
          unfold _is_better_path
          rw [if_neg hne, if_pos h1]
        simp only [generate_bus_aware_manhattan_path] at hr
        rw [if_pos hbs, hgen] at hr
        simp only [hib] at hr
        exact ⟨bp, rfl, (Option.some.inj hr).symm, Or.inl h1⟩
      · by_cases h2 : ((_generate_direct_manhattan_path sp ep avoid).total_length -
            bp.total_length) /
            (_generate_direct_manhattan_path sp ep avoid).total_length > 0.05 ∧
            bp.total_length < (_generate_direct_manhattan_path sp ep avoid).total_length
        · right
          have hib : _is_better_path bp (_generate_direct_manhattan_path sp ep avoid) =
              some true := by
            unfold _is_better_path
            rw [if_neg hne, if_neg h1, if_pos h2]
          simp only [generate_bus_aware_manhattan_path] at hr
          rw [if_pos hbs, hgen] at hr
          simp only [hib] at hr
          exact ⟨bp, rfl, (Option.some.inj hr).symm, Or.inr h2⟩
        · left
          have hib : _is_better_path bp (_generate_direct_manhattan_path sp ep avoid) =
              some false := by
            unfold _is_better_path
            rw [if_neg hne, if_neg h1, if_neg h2]
          simp only [generate_bus_aware_manhattan_path] at hr
          rw [if_pos hbs, hgen] at hr
          simp only [hib] at hr
          exact (Option.some.inj hr).symm

theorem C3_bus_selection_rule_witness :
    (_generate_direct_manhattan_path pinA pinB []).total_length ≠ 0 ∧
    generate_bus_aware_manhattan_path pinA pinB [] [] =
      some (_generate_direct_manhattan_path pinA pinB []) ∧
    (_generate_direct_manhattan_path pinA pinB [] =
        _generate_direct_manhattan_path pinA pinB [] ∨
      ∃ bp, _generate_bus_routing_path pinA.get_connection_point
          pinB.get_connection_point (_analyze_bus_structures []) = some bp ∧
        _generate_direct_manhattan_path pinA pinB [] =
          { bp with start_pin := some pinA, end_pin := some pinB } ∧
        (((_generate_direct_manhattan_path pinA pinB []).total_length - bp.total_length) /
            (_generate_direct_manhattan_path pinA pinB []).total_length > 0.1 ∨
         (((_generate_direct_manhattan_path pinA pinB []).total_length - bp.total_length) /
            (_generate_direct_manhattan_path pinA pinB []).total_length > 0.05 ∧
          bp.total_length < (_generate_direct_manhattan_path pinA pinB []).total_length))) := by
  have hne : (_generate_direct_manhattan_path pinA pinB []).total_length ≠ 0 := by
    rw [direct_AB_length]
    norm_num
  have hr : generate_bus_aware_manhattan_path pinA pinB [] [] =
      some (_generate_direct_manhattan_path pinA pinB []) := by
    simp only [generate_bus_aware_manhattan_path, _analyze_bus_structures,
      List.filterMap_nil, List.mergeSort_nil]
    rw [if_neg (fun hcon => hcon rfl)]
  exact ⟨hne, hr, C3_bus_selection_rule pinA pinB [] [] hne _ hr⟩

/-- The bus-aware candidate for the degenerate `pinZ → pinZ` request. -/
noncomputable def busPathZZ : RoutingPath :=
  { start_pin := none
    end_pin := none
    segments := [(⟨0, 0⟩, ⟨0, 10000000⟩), (⟨0, 10000000⟩, ⟨0, 0⟩)]
    total_length := (10000000 : ℝ) + 10000000
    mode := RoutingMode.MANHATTAN
    quality_score := 1000000.0 / ((10000000 : ℝ) + 10000000 + 1.0)
    bus_used := some "bus1" }

theorem bus_path_ZZ :
    _generate_bus_routing_path ⟨0, 0⟩ ⟨0, 0⟩ [bus0] = some busPathZZ := by
  rw [bus_routing_single _ _ _ _ conn_ZZ,
    distance_to_same_x (show (⟨0, 0⟩ : Position).x_nm =
      (⟨0, 10000000⟩ : Position).x_nm from rfl),
    distance_to_same_x (show (⟨0, 10000000⟩ : Position).x_nm =
      (⟨0, 0⟩ : Position).x_nm from rfl)]
  norm_num [busPathZZ, bus0]

theorem direct_ZZ_length :
    (_generate_direct_manhattan_path pinZ pinZ []).total_length = 0 := by
  rw [direct_total_length]
  norm_num [pinZ]

theorem is_better_ZZ_none :
    _is_better_path busPathZZ (_generate_direct_manhattan_path pinZ pinZ []) = none := by
  unfold _is_better_path
  rw [direct_ZZ_length, if_pos rfl]

/-- C3 counterexample: when start and end pins coincide (direct length `0.0`)
and a qualifying bus exists, `generate_bus_aware_manhattan_path` does not
return the direct path — `_is_better_path` divides by the direct length and
raises `ZeroDivisionError` (modelled as `none`). -/
theorem C3_zero_length_counterexample :
    generate_bus_aware_manhattan_path pinZ pinZ [] [busWire] = none := by
  simp only [generate_bus_aware_manhattan_path, Pin.get_connection_point]
  rw [show pinZ.position = (⟨0, 0⟩ : Position) from rfl, analyze_single]
  rw [if_pos (by simp : ([bus0] : List BusStructure) ≠ [])]
  simp only [bus_path_ZZ, is_better_ZZ_none]
